import Mathlib

/-!
Shallow embedding of the Camarim persistence layer (src/database.js and
src/migration-final.js.js) and proofs about its behaviour.

Modelling conventions:

* Timestamps and dates are natural numbers (milliseconds).  Every source
  call of the form `new Date()` / `Date.now()` reads the `now` field of the
  database state; `now` is set explicitly by the scenarios (two reads in
  the same logical operation may therefore coincide, exactly as two
  `Date.now()` calls in the same millisecond do).
* A collection of the underlying IndexedDB engine is modelled as a Lean
  list holding the records in insertion order.  `store.add` fails with a
  constraint error when a record with the same primary key is already
  present (IndexedDB `keyPath` uniqueness); `store.put` upserts;
  `store.delete` removes the record with the given key.
* `bulkAdd` queues one `add` per item inside a single transaction.  An
  unhandled request error aborts an IndexedDB transaction, so the model of
  `bulkAdd` commits all items when every key is fresh and otherwise fails
  with a constraint error leaving the collection unchanged, mirroring the
  source where no `onerror` handler calls `preventDefault`.
* Reads (`getAll`, `get`, `getStoreCount`) are modelled as direct reads of
  the collection lists.  In the source they are routed through the query
  cache, but every mutating path invalidates all cache entries of the
  touched collection before resolving (the property proved for claim C2),
  so a cached read never differs from the underlying collection.
* The source's `DatabaseManager.add` fires `logAudit`, which itself
  appends through `DatabaseManager.add` on the audit collection and would
  recurse (audit of the audit append, and so on).  The embedding performs
  the audit append primitively (`DBState.auditAppend`): the nested
  audit-of-audit appends touch only the audit collection and are cut here.
* The audit `details` payloads are serialised in the source with
  `JSON.stringify`; the embedding keeps them as plain strings whose exact
  contents no claim inspects.
* `DatabaseMonitor` (pure in-memory metrics), the `localStorage` marker
  keys written by the migration, and the `info` field of a backup record
  (engine statistics) are monitoring data inspected by no claim and are
  omitted from the state.
* The environment flags `dbInitialized` (this.db non-null),
  `auditStoreAvailable` (the audit object store exists) and
  `auditAddFails` (the engine request backing the audit append fails)
  model the external failure sources of the source code.
-/

/-- One sold line item inside a sale record. -/
structure SaleItem where
  productId : Nat
  name : String
  quantity : Int
  price : Int
  deriving DecidableEq

/-- A product record of the `products` collection (keyPath `id`). -/
structure Product where
  id : Nat
  category : String
  stock : Int
  sellingPrice : Int
  createdAt : Nat
  deriving DecidableEq

/-- A sale record of the `sales` collection (keyPath `id`).  `items` is an
`Option` because the source checks `!s.items` for a missing list. -/
structure Sale where
  id : Nat
  date : Nat
  attendant : String
  paymentMethod : String
  total : Int
  items : Option (List SaleItem)
  deriving DecidableEq

/-- A settings record of the `settings` collection (keyPath `key`). -/
structure Setting where
  key : String
  value : String
  deriving DecidableEq

/-- The system-data payload `{products, sales, settings}` moved around by
migration, backups and import/export.  Each field is an `Option` because
the JSON payload may lack it (the source tests truthiness before use);
the `settings` object is modelled as its entry list in insertion order. -/
structure SysData where
  products : Option (List Product)
  sales : Option (List Sale)
  settings : Option (List (String × String))
  deriving DecidableEq

/-- A backup record of the `backups` collection (keyPath `timestamp`). -/
structure Backup where
  timestamp : Nat
  btype : String
  data : SysData
  version : Nat
  deriving DecidableEq

/-- An audit record of the `audit_log` collection (auto-increment `id`). -/
structure AuditEntry where
  id : Nat
  timestamp : Nat
  action : String
  details : String
  userId : String
  userName : String
  deriving DecidableEq

/-- Errors surfaced by rejected promises of the storage operations. -/
inductive DBErr where
  | notInitialized
  | constraintError
  | backupNotFound
  deriving DecidableEq

/-- Store names, as in `this.stores` of the source. -/
def storeProducts : String := "products"

def storeSales : String := "sales"

def storeSettings : String := "settings"

def storeBackups : String := "backups"

def storeAuditLog : String := "audit_log"

/-- JavaScript `key.includes(pattern)`: substring containment. -/
def strIncludes (key pattern : String) : Bool :=
  decide (pattern.data <:+: key.data)

/-- The query cache: entries `(key, storedAt, value)` in JavaScript `Map`
insertion order, plus the capacity bound. -/
structure QueryCache (α : Type) where
  entries : List (String × Nat × α)
  maxSize : Nat
  deriving DecidableEq

namespace QueryCache

/-- `this.cache.get(key)`: the stored `(timestamp, data)` for a key. -/
def lookup {α : Type} (c : QueryCache α) (key : String) : Option (Nat × α) :=
  (c.entries.find? (fun e => e.1 == key)).map (fun e => e.2)

/-- `this.cache.set(key, {data, timestamp})`: a JavaScript `Map` keeps the
original position of an existing key and appends a fresh key. -/
def setEntry {α : Type} (c : QueryCache α) (key : String) (ts : Nat) (v : α) :
    QueryCache α :=
  if c.entries.any (fun e => e.1 == key) then
    { c with entries := c.entries.map (fun e => if e.1 == key then (key, ts, v) else e) }
  else
    { c with entries := c.entries ++ [(key, ts, v)] }

/-- The scan of `removeOldest`: fold over the entries keeping the first
entry with a strictly smaller timestamp than all scanned so far
(`oldestTime` starts at `Infinity`, comparison is strict `<`). -/
def findOldestAux {α : Type} (acc : Option (String × Nat)) :
    List (String × Nat × α) → Option (String × Nat)
  | [] => acc
  | e :: rest =>
    match acc with
    | none => findOldestAux (some (e.1, e.2.1)) rest
    | some (k, t) =>
      if e.2.1 < t then findOldestAux (some (e.1, e.2.1)) rest
      else findOldestAux (some (k, t)) rest

/-- `removeOldest()`: delete the entry found by the scan, if any. -/
def removeOldest {α : Type} (c : QueryCache α) : QueryCache α :=
  match findOldestAux none c.entries with
  | none => c
  | some (k, _) => { c with entries := c.entries.eraseP (fun e => e.1 == k) }

/-- The miss path of `getOrFetch`: run the loader, evict when the cache is
at capacity (`this.cache.size >= this.maxSize`), store the fresh entry. -/
def fetchStore {α : Type} (c : QueryCache α) (key : String) (loader : α)
    (now : Nat) : α × QueryCache α :=
  let c1 := if c.maxSize ≤ c.entries.length then c.removeOldest else c
  (loader, c1.setEntry key now loader)

/-- `getOrFetch(key, fetchFunction, ttl)`: return a live cached value, else
fetch and store.  The loader is a pure value here because every claim using
it only needs the value the underlying read would produce. -/
def getOrFetch {α : Type} (c : QueryCache α) (key : String) (loader : α)
    (ttl now : Nat) : α × QueryCache α :=
  match c.lookup key with
  | some (ts, d) => if now - ts < ttl then (d, c) else fetchStore c key loader now
  | none => fetchStore c key loader now

/-- `invalidate(key)`. -/
def invalidate {α : Type} (c : QueryCache α) (key : String) : QueryCache α :=
  { c with entries := c.entries.filter (fun e => !(e.1 == key)) }

/-- `invalidatePattern(pattern)`: drop every entry whose key contains the
pattern as a substring. -/
def invalidatePattern {α : Type} (c : QueryCache α) (pattern : String) :
    QueryCache α :=
  { c with entries := c.entries.filter (fun e => !(strIncludes e.1 pattern)) }

/-- `clear()`. -/
def clear {α : Type} (c : QueryCache α) : QueryCache α :=
  { c with entries := [] }

end QueryCache

/-- The source's cache default TTL (5 minutes in milliseconds). -/
def defaultTTL : Nat := 5 * 60 * 1000

/-- The source's cache default capacity. -/
def defaultMaxSize : Nat := 100

/-- The whole state of the persistence layer.  The cached values are
opaque to every mutating path, so they are carried as strings. -/
structure DBState where
  dbInitialized : Bool
  auditStoreAvailable : Bool
  auditAddFails : Bool
  products : List Product
  sales : List Sale
  settings : List Setting
  backups : List Backup
  auditLog : List AuditEntry
  nextAuditId : Nat
  now : Nat
  cache : QueryCache String
  deriving DecidableEq

namespace DBState

/-- Engine-level `store.add`: key uniqueness enforced by the keyPath. -/
def addRecord {κ ρ : Type} [DecidableEq κ] (key : ρ → κ) (l : List ρ) (r : ρ) :
    Except DBErr (List ρ) :=
  if l.any (fun x => decide (key x = key r)) then Except.error DBErr.constraintError
  else Except.ok (l ++ [r])

/-- Engine-level `store.put`: replace the record with the same key, else
append. -/
def putRecord {κ ρ : Type} [DecidableEq κ] (key : ρ → κ) (l : List ρ) (r : ρ) :
    List ρ :=
  if l.any (fun x => decide (key x = key r)) then
    l.map (fun x => if key x = key r then r else x)
  else l ++ [r]

/-- Success condition of a `bulkAdd` transaction: every queued `add`
succeeds, i.e. the item keys are pairwise distinct and fresh. -/
def bulkAddOk {κ ρ : Type} [DecidableEq κ] (key : ρ → κ)
    (store items : List ρ) : Prop :=
  (items.map key).Nodup ∧ ∀ r ∈ items, key r ∉ store.map key

instance {κ ρ : Type} [DecidableEq κ] (key : ρ → κ) (store items : List ρ) :
    Decidable (bulkAddOk key store items) := by
  unfold bulkAddOk
  infer_instance

/-- The primitive audit append performed by `logAudit` through
`DatabaseManager.add` on the audit collection: build the entry from the
clock and the (externally supplied, here defaulted) user identity, append
it with the auto-increment id, and invalidate the cached audit reads. -/
def auditAppend (st : DBState) (action details : String) :
    Except DBErr DBState :=
  if st.auditAddFails then Except.error DBErr.constraintError
  else
    Except.ok
      { st with
        auditLog := st.auditLog ++
          [{ id := st.nextAuditId, timestamp := st.now, action := action,
             details := details, userId := "unknown", userName := "Sistema" }],
        nextAuditId := st.nextAuditId + 1,
        cache := st.cache.invalidatePattern storeAuditLog }

/-- `logAudit(action, details)`: skip when the database or the audit store
is unavailable, and swallow every append failure (the surrounding
`try/catch` only logs to the console). -/
def logAudit (st : DBState) (action details : String) : DBState :=
  if !st.dbInitialized || !st.auditStoreAvailable then st
  else
    match st.auditAppend action details with
    | Except.ok st' => st'
    | Except.error _ => st

/-- Shared tail of each successful write (`request.onsuccess` of add,
update and delete): invalidate every cache entry of the collection, then
log the audit entry. -/
def afterWrite (st : DBState) (storeName action : String) : DBState :=
  logAudit { st with cache := st.cache.invalidatePattern storeName }
    action ("store=" ++ storeName)

/-- `add(PRODUCTS, p)`: resolves with the key. -/
def addProduct (st : DBState) (p : Product) : Except DBErr (Nat × DBState) :=
  if !st.dbInitialized then Except.error DBErr.notInitialized
  else
    match addRecord Product.id st.products p with
    | Except.error e => Except.error e
    | Except.ok l =>
      Except.ok (p.id, afterWrite { st with products := l } storeProducts "add")

/-- `add(SALES, s)`. -/
def addSale (st : DBState) (s : Sale) : Except DBErr (Nat × DBState) :=
  if !st.dbInitialized then Except.error DBErr.notInitialized
  else
    match addRecord Sale.id st.sales s with
    | Except.error e => Except.error e
    | Except.ok l =>
      Except.ok (s.id, afterWrite { st with sales := l } storeSales "add")

/-- `add(BACKUPS, b)`. -/
def addBackup (st : DBState) (b : Backup) : Except DBErr (Nat × DBState) :=
  if !st.dbInitialized then Except.error DBErr.notInitialized
  else
    match addRecord Backup.timestamp st.backups b with
    | Except.error e => Except.error e
    | Except.ok l =>
      Except.ok (b.timestamp, afterWrite { st with backups := l } storeBackups "add")

/-- `update(PRODUCTS, p)` (a `put`, hence an upsert). -/
def updateProduct (st : DBState) (p : Product) : Except DBErr DBState :=
  if !st.dbInitialized then Except.error DBErr.notInitialized
  else
    Except.ok (afterWrite
      { st with products := putRecord Product.id st.products p }
      storeProducts "update")

/-- `delete(SALES, key)`. -/
def deleteSale (st : DBState) (key : Nat) : Except DBErr DBState :=
  if !st.dbInitialized then Except.error DBErr.notInitialized
  else
    Except.ok (afterWrite
      { st with sales := st.sales.filter (fun s => decide (s.id ≠ key)) }
      storeSales "delete")

/-- `delete(BACKUPS, key)`. -/
def deleteBackup (st : DBState) (key : Nat) : Except DBErr DBState :=
  if !st.dbInitialized then Except.error DBErr.notInitialized
  else
    Except.ok (afterWrite
      { st with backups := st.backups.filter (fun b => decide (b.timestamp ≠ key)) }
      storeBackups "delete")

/-- `clearStore(storeName)` for the products store: clear the collection
and invalidate its cached reads (no audit entry in the source). -/
def clearProducts (st : DBState) : Except DBErr DBState :=
  if !st.dbInitialized then Except.error DBErr.notInitialized
  else
    Except.ok
      { st with
        products := [],
        cache := st.cache.invalidatePattern storeProducts }

/-- `clearStore` for the sales store. -/
def clearSales (st : DBState) : Except DBErr DBState :=
  if !st.dbInitialized then Except.error DBErr.notInitialized
  else
    Except.ok
      { st with
        sales := [],
        cache := st.cache.invalidatePattern storeSales }

/-- `clearStore` for the settings store. -/
def clearSettings (st : DBState) : Except DBErr DBState :=
  if !st.dbInitialized then Except.error DBErr.notInitialized
  else
    Except.ok
      { st with
        settings := [],
        cache := st.cache.invalidatePattern storeSettings }

/-- `bulkAdd(PRODUCTS, items)`: resolve 0 without any work when the
database handle is missing or the item list is null/undefined/empty;
otherwise commit all items in one transaction (or fail it wholesale),
invalidating the collection's cache entries on commit.  `bulkAdd` writes
no audit entry in the source. -/
def bulkAddProducts (st : DBState) (items : Option (List Product)) :
    Except DBErr (Nat × DBState) :=
  if !st.dbInitialized || (items.getD []).isEmpty then Except.ok (0, st)
  else if bulkAddOk Product.id st.products (items.getD []) then
    Except.ok ((items.getD []).length,
      { st with
        products := st.products ++ items.getD [],
        cache := st.cache.invalidatePattern storeProducts })
  else Except.error DBErr.constraintError

/-- `bulkAdd(SALES, items)`. -/
def bulkAddSales (st : DBState) (items : Option (List Sale)) :
    Except DBErr (Nat × DBState) :=
  if !st.dbInitialized || (items.getD []).isEmpty then Except.ok (0, st)
  else if bulkAddOk Sale.id st.sales (items.getD []) then
    Except.ok ((items.getD []).length,
      { st with
        sales := st.sales ++ items.getD [],
        cache := st.cache.invalidatePattern storeSales })
  else Except.error DBErr.constraintError

/-- `bulkAdd(SETTINGS, items)`. -/
def bulkAddSettings (st : DBState) (items : Option (List Setting)) :
    Except DBErr (Nat × DBState) :=
  if !st.dbInitialized || (items.getD []).isEmpty then Except.ok (0, st)
  else if bulkAddOk Setting.key st.settings (items.getD []) then
    Except.ok ((items.getD []).length,
      { st with
        settings := st.settings ++ items.getD [],
        cache := st.cache.invalidatePattern storeSettings })
  else Except.error DBErr.constraintError

/-- Building the settings object of `getSystemData`: insert one entry per
settings record, a later record with the same key overwriting the value in
place (JavaScript object assignment). -/
def objSet (o : List (String × String)) (k v : String) :
    List (String × String) :=
  if o.any (fun e => e.1 == k) then
    o.map (fun e => if e.1 == k then (k, v) else e)
  else o ++ [(k, v)]

/-- `getSystemData()`: the full `{products, sales, settings}` snapshot. -/
def getSystemData (st : DBState) : SysData :=
  { products := some st.products,
    sales := some st.sales,
    settings := some (st.settings.foldl (fun o s => objSet o s.key s.value) []) }

end DBState

namespace DBState

/-- One step of the ascending sort used by `cleanupOldBackups`
(`backups.sort((a, b) => new Date(a.timestamp) - new Date(b.timestamp))`,
a stable ascending sort by timestamp). -/
def insertByTs (b : Backup) : List Backup → List Backup
  | [] => [b]
  | x :: xs => if b.timestamp < x.timestamp then b :: x :: xs else x :: insertByTs b xs

/-- Stable insertion sort of the backups by ascending timestamp. -/
def sortByTs (l : List Backup) : List Backup :=
  l.foldr insertByTs []

/-- The deletion loop of `cleanupOldBackups`; a rejected delete is caught
by the surrounding `try/catch`, stopping the loop. -/
def deleteBackupsLoop : DBState → List Backup → DBState
  | st, [] => st
  | st, b :: rest =>
    match st.deleteBackup b.timestamp with
    | Except.ok st' => deleteBackupsLoop st' rest
    | Except.error _ => st

/-- `cleanupOldBackups(maxBackups)`: when the collection exceeds the
bound, sort ascending by timestamp and delete all but the most recent
`maxBackups`. -/
def cleanupOldBackups (st : DBState) (maxBackups : Nat) : DBState :=
  if maxBackups < st.backups.length then
    deleteBackupsLoop st
      ((sortByTs st.backups).take (st.backups.length - maxBackups))
  else st

/-- `createBackup(type, data)`: snapshot the current system data when no
payload is supplied, insert the backup record keyed by the current
timestamp, then enforce the retention bound of 30.  Every failure is
caught and turned into a `null` result. -/
def createBackup (st : DBState) (btype : String) (dataArg : Option SysData) :
    Option Nat × DBState :=
  let ts := st.now
  let data := match dataArg with
    | some d => d
    | none => st.getSystemData
  let b : Backup := { timestamp := ts, btype := btype, data := data, version := 3 }
  match st.addBackup b with
  | Except.error _ => (none, st)
  | Except.ok (_, st1) => (some ts, st1.cleanupOldBackups 30)

/-- The `get(BACKUPS, timestamp)` read used by `restoreBackup`. -/
def getBackup (st : DBState) (ts : Nat) : Option Backup :=
  st.backups.find? (fun b => b.timestamp == ts)

/-- The products leg of `saveSystemData`: only a present and non-empty
payload list clears and rewrites the collection.  A failure is reported
together with the partially written state: the `executeTransaction`
wrapper of the source opens a transaction of its own, but the inner
`clearStore`/`bulkAdd` calls each run in their own transaction, so the
work already done stays. -/
def saveProductsPart (st : DBState) (data : SysData) :
    Except (DBErr × DBState) DBState :=
  match data.products with
  | none => Except.ok st
  | some l =>
    if l.isEmpty then Except.ok st
    else
      match st.clearProducts with
      | Except.error e => Except.error (e, st)
      | Except.ok st1 =>
        match st1.bulkAddProducts (some l) with
        | Except.error e => Except.error (e, st1)
        | Except.ok (_, st2) => Except.ok st2

/-- The sales leg of `saveSystemData`. -/
def saveSalesPart (st : DBState) (data : SysData) :
    Except (DBErr × DBState) DBState :=
  match data.sales with
  | none => Except.ok st
  | some l =>
    if l.isEmpty then Except.ok st
    else
      match st.clearSales with
      | Except.error e => Except.error (e, st)
      | Except.ok st1 =>
        match st1.bulkAddSales (some l) with
        | Except.error e => Except.error (e, st1)
        | Except.ok (_, st2) => Except.ok st2

/-- The settings leg of `saveSystemData`: any present settings object
(also an empty one: `if (data.settings)` is true for `{}`) clears the
collection and writes one record per object entry. -/
def saveSettingsPart (st : DBState) (data : SysData) :
    Except (DBErr × DBState) DBState :=
  match data.settings with
  | none => Except.ok st
  | some obj =>
    match st.clearSettings with
    | Except.error e => Except.error (e, st)
    | Except.ok st1 =>
      let settingsArray := obj.map (fun e => ({ key := e.1, value := e.2 } : Setting))
      match st1.bulkAddSettings (some settingsArray) with
      | Except.error e => Except.error (e, st1)
      | Except.ok (_, st2) => Except.ok st2

/-- `saveSystemData(data)`: write the three collections, then create an
`auto` backup of the payload.  A failure falls back to the flat-storage
blob (modelled as succeeding, hence the `true` result) with the partial
collection state left as is. -/
def saveSystemData (st : DBState) (data : SysData) : Bool × DBState :=
  match st.saveProductsPart data with
  | Except.error (_, stp) => (true, stp)
  | Except.ok st1 =>
    match st1.saveSalesPart data with
    | Except.error (_, stp) => (true, stp)
    | Except.ok st2 =>
      match st2.saveSettingsPart data with
      | Except.error (_, stp) => (true, stp)
      | Except.ok st3 => (true, (st3.createBackup "auto" (some data)).2)

/-- `restoreBackup(timestamp)`: look the backup up, create a
`pre_restore` safety snapshot, overwrite the store with the backup's
payload, and record an audit entry.  Every failure is caught and turned
into a `false` result. -/
def restoreBackup (st : DBState) (ts : Nat) : Bool × DBState :=
  if !st.dbInitialized then (false, st)
  else
    match st.getBackup ts with
    | none => (false, st)
    | some b =>
      (true,
        (((st.createBackup "pre_restore" none).2.saveSystemData b.data).2).logAudit
          "restore_backup" "timestamp")

/-- The products half of `mergeData`: insert only legacy records whose id
is not among the existing ids; an existing record always wins. -/
def mergeProducts (st : DBState) (ps : Option (List Product)) :
    Except DBErr DBState :=
  match ps with
  | none => Except.ok st
  | some l =>
    if l.isEmpty then Except.ok st
    else
      let existingIds := st.products.map Product.id
      let newProducts := l.filter (fun p => decide (p.id ∉ existingIds))
      if newProducts.isEmpty then Except.ok st
      else
        match st.bulkAddProducts (some newProducts) with
        | Except.error e => Except.error e
        | Except.ok (_, st') => Except.ok st'

/-- The sales half of `mergeData`. -/
def mergeSales (st : DBState) (ss : Option (List Sale)) :
    Except DBErr DBState :=
  match ss with
  | none => Except.ok st
  | some l =>
    if l.isEmpty then Except.ok st
    else
      let existingIds := st.sales.map Sale.id
      let newSales := l.filter (fun s => decide (s.id ∉ existingIds))
      if newSales.isEmpty then Except.ok st
      else
        match st.bulkAddSales (some newSales) with
        | Except.error e => Except.error e
        | Except.ok (_, st') => Except.ok st'

/-- `mergeData(data)`: merge the products, then the sales; an error is
rethrown to the caller. -/
def mergeData (st : DBState) (data : SysData) : Except DBErr DBState :=
  match st.mergeProducts data.products with
  | Except.error e => Except.error e
  | Except.ok st1 =>
    match st1.mergeSales data.sales with
    | Except.error e => Except.error e
    | Except.ok st2 => Except.ok st2

/-- The tail of a successful migration: the `migration` backup of the
legacy payload (its failures are swallowed by `createBackup`), the
external `localStorage` markers (omitted), and the closing audit entry. -/
def migrateTail (st : DBState) (data : SysData) : DBState :=
  ((st.createBackup "migration" (some data)).2).logAudit
    "migration_complete" "migratedItems"

/-- `migrateFromLocalStorage()` applied to the already-parsed legacy
payload (`none` models an absent `camarim-system-data` key).  A non-empty
store routes to the id-deduplicating merge, an empty one to the bulk
load; a merge failure is caught and audited as `migration_error`. -/
def migrateFromLocalStorage (st : DBState) (legacy : Option SysData) : DBState :=
  match legacy with
  | none => st
  | some data =>
    if !(st.logAudit "migration_start" "itemsCount").dbInitialized then
      (st.logAudit "migration_start" "itemsCount").logAudit
        "migration_error" "getStoreCount"
    else if 0 < (st.logAudit "migration_start" "itemsCount").products.length ∨
        0 < (st.logAudit "migration_start" "itemsCount").sales.length then
      match (st.logAudit "migration_start" "itemsCount").mergeData data with
      | Except.error _ => (st.logAudit "migration_start" "itemsCount").logAudit
          "migration_error" "merge"
      | Except.ok st2 => migrateTail st2 data
    else
      migrateTail
        (((st.logAudit "migration_start" "itemsCount").saveSystemData data).2)
        data

/-- `getSalesByDateRange(startDate, endDate)`: an inclusive range read on
the `date` index; errors (missing handle) are caught into `[]`. -/
def getSalesByDateRange (st : DBState) (lower upper : Nat) : List Sale :=
  if !st.dbInitialized then []
  else st.sales.filter (fun s => decide (lower ≤ s.date ∧ s.date ≤ upper))

end DBState

/-- Observable maintenance work, used to state the temporal claims about
the background sync: which snapshots were taken and which records were
deleted, in execution order. -/
inductive SyncEvent where
  | integrityChecked
  | backupCreated (btype : String) (ts : Nat) (data : SysData)
  | backupFailed (btype : String)
  | saleDeleted (id : Nat)
  deriving DecidableEq

/-- The mutable state of the `BackgroundSync` component. -/
structure SyncState where
  syncInProgress : Bool
  lastSync : Option Nat
  deriving DecidableEq

/-- Two years in milliseconds.  The source computes the archival cutoff
with `setFullYear(year - 2)`; the exact span does not matter to any
claim, so a fixed two-year span stands in for the calendar arithmetic. -/
def twoYearsMs : Nat := 2 * 365 * 24 * 60 * 60 * 1000

namespace BackgroundSync

/-- The in-place repair of one product: `product.stock = Math.max(0,
product.stock)`. -/
def clampStock (p : Product) : Product :=
  { p with stock := max 0 p.stock }

/-- The repair loop of `checkDataIntegrity`: update each negative-stock
product with its clamped copy; a rejected update is caught by the
surrounding `try/catch` (signalled by the `false` flag). -/
def integrityUpdateLoop : DBState → List Product → DBState × Bool
  | st, [] => (st, true)
  | st, p :: rest =>
    match st.updateProduct (clampStock p) with
    | Except.ok st' => integrityUpdateLoop st' rest
    | Except.error _ => (st, false)

/-- The duplicate scan of `checkDataIntegrity`:
`productIds.filter((id, index) => productIds.indexOf(id) !== index)`
keeps exactly the occurrences preceded by an equal element. -/
def dupScan : List Nat → List Nat → List Nat
  | _, [] => []
  | seen, x :: rest =>
    (if x ∈ seen then [x] else []) ++ dupScan (seen ++ [x]) rest

/-- The negative-stock scan of `checkDataIntegrity`. -/
def negativeStock (st : DBState) : List Product :=
  st.products.filter (fun p => decide (p.stock < 0))

/-- The empty-or-missing-items scan of `checkDataIntegrity`
(`!s.items || s.items.length === 0`). -/
def emptySales (st : DBState) : List Sale :=
  st.sales.filter (fun s => decide (s.items.getD [] = []))

/-- The duplicate-id scan of `checkDataIntegrity`. -/
def duplicateIds (st : DBState) : List Nat :=
  dupScan [] (st.products.map Product.id)

/-- The issue list assembled by `checkDataIntegrity`, in push order. -/
def integrityIssues (st : DBState) : List String :=
  (if 0 < (negativeStock st).length then
    [toString (negativeStock st).length ++ " produtos com estoque negativo"]
   else []) ++
  (if 0 < (emptySales st).length then
    [toString (emptySales st).length ++ " vendas sem itens"]
   else []) ++
  (if 0 < (duplicateIds st).length then
    [toString (duplicateIds st).length ++ " IDs de produto duplicados"]
   else [])

/-- The repair pass of `checkDataIntegrity`: run the update loop exactly
when some product has negative stock. -/
def repairRun (st : DBState) : DBState × Bool :=
  if 0 < (negativeStock st).length then
    integrityUpdateLoop st (negativeStock st)
  else (st, true)

/-- `checkDataIntegrity()`: clamp-and-persist negative stock, flag empty
or missing sale item lists, flag duplicate product ids; audit one entry
when and only when issues were found.  Every failure is caught into the
`Erro na verificação` result. -/
def checkDataIntegrity (st : DBState) : List String × DBState :=
  if !st.dbInitialized then (["Erro na verificação"], st)
  else if !(repairRun st).2 then (["Erro na verificação"], (repairRun st).1)
  else if 0 < (integrityIssues st).length then
    (integrityIssues st, (repairRun st).1.logAudit "integrity_check" "issues")
  else (integrityIssues st, (repairRun st).1)

/-- The deletion loop of `cleanupOldData`; a rejected delete is caught by
the surrounding `try/catch`, stopping the loop. -/
def deleteSalesLoop : DBState → List Sale → DBState × List SyncEvent
  | st, [] => (st, [])
  | st, s :: rest =>
    match st.deleteSale s.id with
    | Except.ok st' =>
      let r := deleteSalesLoop st' rest
      (r.1, SyncEvent.saleDeleted s.id :: r.2)
    | Except.error _ => (st, [])

/-- The sales older than two years found by `cleanupOldData`. -/
def oldSalesOf (st : DBState) : List Sale :=
  st.getSalesByDateRange 0 (st.now - twoYearsMs)

/-- The caller-supplied payload of the `archive` backup. -/
def archiveDataOf (st : DBState) : SysData :=
  { products := some [], sales := some (oldSalesOf st), settings := some [] }

/-- `cleanupOldData()`: snapshot the sales older than two years into an
`archive` backup, then delete them from the live collection.  The result
of `createBackup` (possibly `null`) is not inspected by the source. -/
def cleanupOldData (st : DBState) : DBState × List SyncEvent :=
  if (oldSalesOf st).isEmpty then (st, [])
  else
    ((deleteSalesLoop (st.createBackup "archive" (some (archiveDataOf st))).2
        (oldSalesOf st)).1,
      (match (st.createBackup "archive" (some (archiveDataOf st))).1 with
        | some ts => [SyncEvent.backupCreated "archive" ts (archiveDataOf st)]
        | none => [SyncEvent.backupFailed "archive"]) ++
      (deleteSalesLoop (st.createBackup "archive" (some (archiveDataOf st))).2
        (oldSalesOf st)).2)

/-- `hasChangesSinceLastSync()`: compare the external `camarim-last-save`
marker against the last recorded sync; a missing marker or a missing
prior sync conservatively reports changes. -/
def hasChangesSinceLastSync (lastSave : Option Nat) (sy : SyncState) : Bool :=
  match lastSave, sy.lastSync with
  | none, _ => true
  | _, none => true
  | some s, some t => decide (t < s)

/-- The conditional `auto_sync` backup step of `sync`, with its event. -/
def syncBackupStep (lastSave : Option Nat) (sy : SyncState) (db1 : DBState) :
    DBState × List SyncEvent :=
  if hasChangesSinceLastSync lastSave sy then
    ((db1.createBackup "auto_sync" none).2,
      match (db1.createBackup "auto_sync" none).1 with
      | some ts => [SyncEvent.backupCreated "auto_sync" ts db1.getSystemData]
      | none => [SyncEvent.backupFailed "auto_sync"])
  else (db1, [])

/-- `sync()`: a no-op while a sync is already in progress; otherwise run
the integrity check, create an `auto_sync` backup when changes were
detected, archive old sales, and stamp `lastSync`.  `bodyFails` models an
unexpected exception inside the body: the `catch` swallows it and the
`finally` clears the in-progress flag either way. -/
def sync (bodyFails : Bool) (lastSave : Option Nat) (db : DBState)
    (sy : SyncState) : DBState × SyncState × List SyncEvent :=
  if sy.syncInProgress then (db, sy, [])
  else if bodyFails then (db, { sy with syncInProgress := false }, [])
  else
    ((cleanupOldData
        (syncBackupStep lastSave sy (checkDataIntegrity db).2).1).1,
      { syncInProgress := false, lastSync := some db.now },
      SyncEvent.integrityChecked ::
        ((syncBackupStep lastSave sy (checkDataIntegrity db).2).2 ++
          (cleanupOldData
            (syncBackupStep lastSave sy (checkDataIntegrity db).2).1).2))

end BackgroundSync

/-! Helper lemmas: fields untouched by the audit / cache bookkeeping. -/

namespace DBState

@[simp] theorem logAudit_products (st : DBState) (a d : String) :
    (st.logAudit a d).products = st.products := by
  rcases st with ⟨dbi, asa, aaf, ps, ss, se, bs, al, ni, n, c⟩
  cases dbi <;> cases asa <;> cases aaf <;> rfl

@[simp] theorem logAudit_sales (st : DBState) (a d : String) :
    (st.logAudit a d).sales = st.sales := by
  rcases st with ⟨dbi, asa, aaf, ps, ss, se, bs, al, ni, n, c⟩
  cases dbi <;> cases asa <;> cases aaf <;> rfl

@[simp] theorem logAudit_settings (st : DBState) (a d : String) :
    (st.logAudit a d).settings = st.settings := by
  rcases st with ⟨dbi, asa, aaf, ps, ss, se, bs, al, ni, n, c⟩
  cases dbi <;> cases asa <;> cases aaf <;> rfl

@[simp] theorem logAudit_backups (st : DBState) (a d : String) :
    (st.logAudit a d).backups = st.backups := by
  rcases st with ⟨dbi, asa, aaf, ps, ss, se, bs, al, ni, n, c⟩
  cases dbi <;> cases asa <;> cases aaf <;> rfl

@[simp] theorem logAudit_dbInitialized (st : DBState) (a d : String) :
    (st.logAudit a d).dbInitialized = st.dbInitialized := by
  rcases st with ⟨dbi, asa, aaf, ps, ss, se, bs, al, ni, n, c⟩
  cases dbi <;> cases asa <;> cases aaf <;> rfl

@[simp] theorem logAudit_now (st : DBState) (a d : String) :
    (st.logAudit a d).now = st.now := by
  rcases st with ⟨dbi, asa, aaf, ps, ss, se, bs, al, ni, n, c⟩
  cases dbi <;> cases asa <;> cases aaf <;> rfl

@[simp] theorem logAudit_auditStoreAvailable (st : DBState) (a d : String) :
    (st.logAudit a d).auditStoreAvailable = st.auditStoreAvailable := by
  rcases st with ⟨dbi, asa, aaf, ps, ss, se, bs, al, ni, n, c⟩
  cases dbi <;> cases asa <;> cases aaf <;> rfl

@[simp] theorem logAudit_auditAddFails (st : DBState) (a d : String) :
    (st.logAudit a d).auditAddFails = st.auditAddFails := by
  rcases st with ⟨dbi, asa, aaf, ps, ss, se, bs, al, ni, n, c⟩
  cases dbi <;> cases asa <;> cases aaf <;> rfl

@[simp] theorem afterWrite_products (st : DBState) (s a : String) :
    (st.afterWrite s a).products = st.products := by
  simp [afterWrite]

@[simp] theorem afterWrite_sales (st : DBState) (s a : String) :
    (st.afterWrite s a).sales = st.sales := by
  simp [afterWrite]

@[simp] theorem afterWrite_settings (st : DBState) (s a : String) :
    (st.afterWrite s a).settings = st.settings := by
  simp [afterWrite]

@[simp] theorem afterWrite_backups (st : DBState) (s a : String) :
    (st.afterWrite s a).backups = st.backups := by
  simp [afterWrite]

@[simp] theorem afterWrite_dbInitialized (st : DBState) (s a : String) :
    (st.afterWrite s a).dbInitialized = st.dbInitialized := by
  simp [afterWrite]

@[simp] theorem afterWrite_now (st : DBState) (s a : String) :
    (st.afterWrite s a).now = st.now := by
  simp [afterWrite]

@[simp] theorem afterWrite_auditStoreAvailable (st : DBState) (s a : String) :
    (st.afterWrite s a).auditStoreAvailable = st.auditStoreAvailable := by
  simp [afterWrite]

@[simp] theorem afterWrite_auditAddFails (st : DBState) (s a : String) :
    (st.afterWrite s a).auditAddFails = st.auditAddFails := by
  simp [afterWrite]

end DBState

namespace QueryCache

theorem lookup_eq_none_iff {α : Type} (c : QueryCache α) (key : String) :
    c.lookup key = none ↔ ∀ e ∈ c.entries, ¬ e.1 = key := by
  unfold lookup
  simp [List.find?_eq_none]

theorem lookup_invalidatePattern_self {α : Type} (c : QueryCache α)
    (p key : String) (h : strIncludes key p = true) :
    (c.invalidatePattern p).lookup key = none := by
  rw [lookup_eq_none_iff]
  intro e he heq
  unfold invalidatePattern at he
  simp only [List.mem_filter] at he
  rcases he with ⟨_, hf⟩
  rw [heq] at hf
  simp [h] at hf

theorem lookup_invalidatePattern_none {α : Type} (c : QueryCache α)
    (p key : String) (h : c.lookup key = none) :
    (c.invalidatePattern p).lookup key = none := by
  rw [lookup_eq_none_iff] at h ⊢
  intro e he
  unfold invalidatePattern at he
  simp only [List.mem_filter] at he
  exact h e he.1

theorem getOrFetch_of_lookup_none {α : Type} (c : QueryCache α)
    (key : String) (loader : α) (ttl now : Nat) (h : c.lookup key = none) :
    (c.getOrFetch key loader ttl now).1 = loader := by
  unfold getOrFetch
  rw [h]
  rfl

end QueryCache

namespace DBState

theorem logAudit_lookup_none (st : DBState) (a d key : String)
    (h : st.cache.lookup key = none) :
    (st.logAudit a d).cache.lookup key = none := by
  unfold logAudit auditAppend
  rcases st with ⟨dbi, asa, aaf, ps, ss, se, bs, al, ni, n, c⟩
  cases dbi <;> cases asa <;> cases aaf <;>
    simp_all [QueryCache.lookup_invalidatePattern_none]

theorem afterWrite_lookup_none (st : DBState) (s a key : String)
    (h : (st.cache.invalidatePattern s).lookup key = none) :
    (st.afterWrite s a).cache.lookup key = none := by
  unfold afterWrite
  exact logAudit_lookup_none _ _ _ _ h

/-- After a successful write the whole cache of the written store is
clear: no key containing the store name survives `afterWrite`. -/
theorem afterWrite_store_lookup_none (st : DBState) (s a key : String)
    (h : strIncludes key s = true) :
    (st.afterWrite s a).cache.lookup key = none :=
  afterWrite_lookup_none st s a key
    (QueryCache.lookup_invalidatePattern_self st.cache s key h)

end DBState

namespace DBState

theorem addRecord_fresh {κ ρ : Type} [DecidableEq κ] (key : ρ → κ)
    (l : List ρ) (r : ρ) (h : key r ∉ l.map key) :
    addRecord key l r = Except.ok (l ++ [r]) := by
  unfold addRecord
  rw [if_neg]
  simp only [List.any_eq_true, decide_eq_true_iff, not_exists]
  intro x hx
  rcases hx with ⟨hx, hk⟩
  exact absurd (List.mem_map.mpr ⟨x, hx, hk⟩) h

theorem addRecord_dup {κ ρ : Type} [DecidableEq κ] (key : ρ → κ)
    (l : List ρ) (r : ρ) (h : key r ∈ l.map key) :
    addRecord key l r = Except.error DBErr.constraintError := by
  unfold addRecord
  rw [if_pos]
  rcases List.mem_map.mp h with ⟨x, hx, hk⟩
  simp only [List.any_eq_true, decide_eq_true_iff]
  exact ⟨x, hx, hk⟩

theorem logAudit_of_unavailable (st : DBState) (a d : String)
    (h : st.auditStoreAvailable = false) : st.logAudit a d = st := by
  unfold logAudit
  rw [if_pos]
  simp [h]

theorem logAudit_of_addFails (st : DBState) (a d : String)
    (h : st.auditAddFails = true) : st.logAudit a d = st := by
  unfold logAudit auditAppend
  rw [h]
  split <;> rfl

end DBState

/-- Claim C2: every successful mutating operation on a collection (add,
update, delete) leaves no cache entry whose key contains that
collection's name, so a subsequent `getOrFetch` for any key of that
collection runs its loader instead of returning a previously cached
value. -/
theorem c2_write_invalidates_collection_cache :
    (∀ (st : DBState) (p : Product) (key : String),
      st.dbInitialized = true → p.id ∉ st.products.map Product.id →
      strIncludes key storeProducts = true →
      ∃ st', st.addProduct p = Except.ok (p.id, st') ∧
        st'.cache.lookup key = none) ∧
    (∀ (st : DBState) (s : Sale) (key : String),
      st.dbInitialized = true → s.id ∉ st.sales.map Sale.id →
      strIncludes key storeSales = true →
      ∃ st', st.addSale s = Except.ok (s.id, st') ∧
        st'.cache.lookup key = none) ∧
    (∀ (st : DBState) (b : Backup) (key : String),
      st.dbInitialized = true → b.timestamp ∉ st.backups.map Backup.timestamp →
      strIncludes key storeBackups = true →
      ∃ st', st.addBackup b = Except.ok (b.timestamp, st') ∧
        st'.cache.lookup key = none) ∧
    (∀ (st : DBState) (p : Product) (key : String),
      st.dbInitialized = true → strIncludes key storeProducts = true →
      ∃ st', st.updateProduct p = Except.ok st' ∧
        st'.cache.lookup key = none) ∧
    (∀ (st : DBState) (k : Nat) (key : String),
      st.dbInitialized = true → strIncludes key storeSales = true →
      ∃ st', st.deleteSale k = Except.ok st' ∧
        st'.cache.lookup key = none) ∧
    (∀ (st : DBState) (k : Nat) (key : String),
      st.dbInitialized = true → strIncludes key storeBackups = true →
      ∃ st', st.deleteBackup k = Except.ok st' ∧
        st'.cache.lookup key = none) ∧
    (∀ (α : Type) (c : QueryCache α) (key : String) (v : α) (ttl now : Nat),
      c.lookup key = none → (c.getOrFetch key v ttl now).1 = v) := by
  refine ⟨?_, ?_, ?_, ?_, ?_, ?_, ?_⟩
  · intro st p key hinit hfresh hkey
    refine ⟨DBState.afterWrite { st with products := st.products ++ [p] }
      storeProducts "add", ?_, ?_⟩
    · unfold DBState.addProduct
      rw [hinit]
      simp only [Bool.not_true, Bool.false_eq_true, if_false]
      rw [DBState.addRecord_fresh Product.id st.products p hfresh]
    · exact DBState.afterWrite_store_lookup_none _ _ _ _ hkey
  · intro st s key hinit hfresh hkey
    refine ⟨DBState.afterWrite { st with sales := st.sales ++ [s] }
      storeSales "add", ?_, ?_⟩
    · unfold DBState.addSale
      rw [hinit]
      simp only [Bool.not_true, Bool.false_eq_true, if_false]
      rw [DBState.addRecord_fresh Sale.id st.sales s hfresh]
    · exact DBState.afterWrite_store_lookup_none _ _ _ _ hkey
  · intro st b key hinit hfresh hkey
    refine ⟨DBState.afterWrite { st with backups := st.backups ++ [b] }
      storeBackups "add", ?_, ?_⟩
    · unfold DBState.addBackup
      rw [hinit]
      simp only [Bool.not_true, Bool.false_eq_true, if_false]
      rw [DBState.addRecord_fresh Backup.timestamp st.backups b hfresh]
    · exact DBState.afterWrite_store_lookup_none _ _ _ _ hkey
  · intro st p key hinit hkey
    refine ⟨DBState.afterWrite
      { st with products := DBState.putRecord Product.id st.products p }
      storeProducts "update", ?_, ?_⟩
    · unfold DBState.updateProduct
      rw [hinit]
      rfl
    · exact DBState.afterWrite_store_lookup_none _ _ _ _ hkey
  · intro st k key hinit hkey
    refine ⟨DBState.afterWrite
      { st with sales := st.sales.filter (fun s => decide (s.id ≠ k)) }
      storeSales "delete", ?_, ?_⟩
    · unfold DBState.deleteSale
      rw [hinit]
      rfl
    · exact DBState.afterWrite_store_lookup_none _ _ _ _ hkey
  · intro st k key hinit hkey
    refine ⟨DBState.afterWrite
      { st with backups := st.backups.filter (fun b => decide (b.timestamp ≠ k)) }
      storeBackups "delete", ?_, ?_⟩
    · unfold DBState.deleteBackup
      rw [hinit]
      rfl
    · exact DBState.afterWrite_store_lookup_none _ _ _ _ hkey
  · intro α c key v ttl now h
    exact QueryCache.getOrFetch_of_lookup_none c key v ttl now h

/-- A small concrete state used by the witness instantiations. -/
def baseState : DBState where
  dbInitialized := true
  auditStoreAvailable := false
  auditAddFails := false
  products := []
  sales := []
  settings := []
  backups := []
  auditLog := []
  nextAuditId := 1
  now := 1000
  cache := { entries := [], maxSize := 100 }

/-- Witness for C2 at a concrete input: updating a product in `baseState`
succeeds and leaves no cached entry under the key `products_1`. -/
theorem c2_write_invalidates_collection_cache_witness :
    ∃ st', baseState.updateProduct ⟨1, "c", 5, 10, 0⟩ = Except.ok st' ∧
      st'.cache.lookup "products_1" = none :=
  c2_write_invalidates_collection_cache.2.2.2.1 baseState ⟨1, "c", 5, 10, 0⟩
    "products_1" (by decide) (by decide)

/-- Claim C8: a `sync()` invocation while a sync is already in progress is
an exact no-op (state untouched, no maintenance events, nothing queued),
and a sync that does run leaves the in-progress flag cleared whether its
body succeeded or failed. -/
theorem c8_sync_reentrancy_guard :
    (∀ (bodyFails : Bool) (lastSave : Option Nat) (db : DBState)
        (sy : SyncState), sy.syncInProgress = true →
      BackgroundSync.sync bodyFails lastSave db sy = (db, sy, [])) ∧
    (∀ (bodyFails : Bool) (lastSave : Option Nat) (db : DBState)
        (sy : SyncState), sy.syncInProgress = false →
      (BackgroundSync.sync bodyFails lastSave db sy).2.1.syncInProgress = false) := by
  constructor
  · intro bodyFails lastSave db sy h
    unfold BackgroundSync.sync
    rw [h]
    rfl
  · intro bodyFails lastSave db sy h
    unfold BackgroundSync.sync
    rw [h]
    cases bodyFails <;> rfl

/-- Witness for C8 at a concrete input: with the flag set, `sync` returns
the state unchanged with no events. -/
theorem c8_sync_reentrancy_guard_witness :
    BackgroundSync.sync false none baseState ⟨true, none⟩ =
      (baseState, ⟨true, none⟩, []) :=
  c8_sync_reentrancy_guard.1 false none baseState ⟨true, none⟩ (by decide)

/-- Claim C9: `logAudit` swallows every failure of the audit append (audit
store unavailable, or the underlying append request failing), and a
mutating operation still resolves successfully (its durable write done,
the audit log untouched) when the audit append fails. -/
theorem c9_audit_append_never_fails_caller :
    (∀ (st : DBState) (a d : String), st.auditStoreAvailable = false →
      st.logAudit a d = st) ∧
    (∀ (st : DBState) (a d : String), st.auditAddFails = true →
      st.logAudit a d = st) ∧
    (∀ (st : DBState) (p : Product),
      st.dbInitialized = true → p.id ∉ st.products.map Product.id →
      (st.auditStoreAvailable = false ∨ st.auditAddFails = true) →
      ∃ st', st.addProduct p = Except.ok (p.id, st') ∧
        st'.products = st.products ++ [p] ∧ st'.auditLog = st.auditLog) := by
  refine ⟨DBState.logAudit_of_unavailable, DBState.logAudit_of_addFails, ?_⟩
  intro st p hinit hfresh hfail
  refine ⟨DBState.afterWrite { st with products := st.products ++ [p] }
    storeProducts "add", ?_, ?_, ?_⟩
  · unfold DBState.addProduct
    rw [hinit]
    simp only [Bool.not_true, Bool.false_eq_true, if_false]
    rw [DBState.addRecord_fresh Product.id st.products p hfresh]
  · simp
  · unfold DBState.afterWrite
    rcases hfail with hfail | hfail
    · rw [DBState.logAudit_of_unavailable _ _ _ (by simpa using hfail)]
    · rw [DBState.logAudit_of_addFails _ _ _ (by simpa using hfail)]

/-- Witness for C9 at a concrete input: with the audit store unavailable,
adding a product to `baseState` still resolves and the audit log stays
empty. -/
theorem c9_audit_append_never_fails_caller_witness :
    ∃ st', baseState.addProduct ⟨1, "c", 5, 10, 0⟩ = Except.ok (1, st') ∧
      st'.products = baseState.products ++ [⟨1, "c", 5, 10, 0⟩] ∧
      st'.auditLog = baseState.auditLog :=
  c9_audit_append_never_fails_caller.2.2 baseState ⟨1, "c", 5, 10, 0⟩
    (by decide) (by decide) (Or.inl (by decide))

/-- Claim C10: `bulkAdd` with a null/undefined or empty item list, or with
the database handle missing, resolves with 0 and performs no work at all
(the returned state is the input state: no write, no cache invalidation,
no audit entry). -/
theorem c10_bulkAdd_empty_or_uninitialized :
    (∀ (st : DBState) (items : Option (List Product)),
      items = none ∨ items = some [] ∨ st.dbInitialized = false →
      st.bulkAddProducts items = Except.ok (0, st)) ∧
    (∀ (st : DBState) (items : Option (List Sale)),
      items = none ∨ items = some [] ∨ st.dbInitialized = false →
      st.bulkAddSales items = Except.ok (0, st)) ∧
    (∀ (st : DBState) (items : Option (List Setting)),
      items = none ∨ items = some [] ∨ st.dbInitialized = false →
      st.bulkAddSettings items = Except.ok (0, st)) := by
  refine ⟨?_, ?_, ?_⟩
  · intro st items h
    unfold DBState.bulkAddProducts
    rcases h with h | h | h
    · subst h
      simp
    · subst h
      simp
    · rw [h]
      simp
  · intro st items h
    unfold DBState.bulkAddSales
    rcases h with h | h | h
    · subst h
      simp
    · subst h
      simp
    · rw [h]
      simp
  · intro st items h
    unfold DBState.bulkAddSettings
    rcases h with h | h | h
    · subst h
      simp
    · subst h
      simp
    · rw [h]
      simp

/-- Witness for C10 at a concrete input: a null item list resolves with 0
and the unchanged state. -/
theorem c10_bulkAdd_empty_or_uninitialized_witness :
    baseState.bulkAddProducts none = Except.ok (0, baseState) :=
  c10_bulkAdd_empty_or_uninitialized.1 baseState none (Or.inl rfl)

namespace QueryCache

theorem findOldestAux_of_min {α : Type} (k : String) (t : Nat) :
    ∀ (l : List (String × Nat × α)), (∀ e ∈ l, ¬ e.2.1 < t) →
      findOldestAux (some (k, t)) l = some (k, t) := by
  intro l
  induction l with
  | nil => intro _; rfl
  | cons e rest ih =>
    intro h
    show (if e.2.1 < t then findOldestAux (some (e.1, e.2.1)) rest
      else findOldestAux (some (k, t)) rest) = some (k, t)
    rw [if_neg (h e (List.mem_cons_self e rest))]
    exact ih (fun x hx => h x (List.mem_cons_of_mem e hx))

theorem findOldestAux_spec {α : Type} :
    ∀ (l : List (String × Nat × α)) (acc : Option (String × Nat))
      (k : String) (t : Nat), findOldestAux acc l = some (k, t) →
      (acc = some (k, t) ∨ ∃ e ∈ l, e.1 = k ∧ e.2.1 = t) ∧
      (∀ e ∈ l, t ≤ e.2.1) ∧
      (∀ k0 t0, acc = some (k0, t0) → t ≤ t0) := by
  intro l
  induction l with
  | nil =>
    intro acc k t h
    refine ⟨Or.inl h, by simp, ?_⟩
    intro k0 t0 h0
    rw [h0] at h
    injection h with h
    exact le_of_eq (congrArg Prod.snd h).symm
  | cons e rest ih =>
    intro acc k t h
    match acc with
    | none =>
      have h' : findOldestAux (some (e.1, e.2.1)) rest = some (k, t) := h
      rcases ih (some (e.1, e.2.1)) k t h' with ⟨h1, h2, h3⟩
      have hte : t ≤ e.2.1 := h3 e.1 e.2.1 rfl
      refine ⟨Or.inr ?_, ?_, by simp⟩
      · rcases h1 with h1 | h1
        · injection h1 with h1
          injection h1 with ha hb
          exact ⟨e, List.mem_cons_self e rest, ha, hb⟩
        · rcases h1 with ⟨x, hx, hxk, hxt⟩
          exact ⟨x, List.mem_cons_of_mem e hx, hxk, hxt⟩
      · intro x hx
        rcases List.mem_cons.mp hx with hx | hx
        · rw [hx]; exact hte
        · exact h2 x hx
    | some (k0, t0) =>
      have h' : (if e.2.1 < t0 then findOldestAux (some (e.1, e.2.1)) rest
        else findOldestAux (some (k0, t0)) rest) = some (k, t) := h
      by_cases hlt : e.2.1 < t0
      · rw [if_pos hlt] at h'
        rcases ih (some (e.1, e.2.1)) k t h' with ⟨h1, h2, h3⟩
        have hte : t ≤ e.2.1 := h3 e.1 e.2.1 rfl
        refine ⟨?_, ?_, ?_⟩
        · rcases h1 with h1 | h1
          · injection h1 with h1
            injection h1 with ha hb
            exact Or.inr ⟨e, List.mem_cons_self e rest, ha, hb⟩
          · rcases h1 with ⟨x, hx, hxk, hxt⟩
            exact Or.inr ⟨x, List.mem_cons_of_mem e hx, hxk, hxt⟩
        · intro x hx
          rcases List.mem_cons.mp hx with hx | hx
          · rw [hx]; exact hte
          · exact h2 x hx
        · intro k1 t1 h1
          injection h1 with h1
          injection h1 with ha hb
          rw [← hb]
          exact le_of_lt (lt_of_le_of_lt hte hlt)
      · rw [if_neg hlt] at h'
        rcases ih (some (k0, t0)) k t h' with ⟨h1, h2, h3⟩
        have htt0 : t ≤ t0 := h3 k0 t0 rfl
        refine ⟨?_, ?_, ?_⟩
        · rcases h1 with h1 | h1
          · exact Or.inl h1
          · rcases h1 with ⟨x, hx, hxk, hxt⟩
            exact Or.inr ⟨x, List.mem_cons_of_mem e hx, hxk, hxt⟩
        · intro x hx
          rcases List.mem_cons.mp hx with hx | hx
          · rw [hx]
            exact le_trans htt0 (not_lt.mp hlt)
          · exact h2 x hx
        · intro k1 t1 h1
          injection h1 with h1
          injection h1 with ha hb
          rw [← hb]
          exact htt0

theorem findOldestAux_isSome {α : Type} :
    ∀ (l : List (String × Nat × α)) (ka : String) (ta : Nat),
      ∃ q, findOldestAux (some (ka, ta)) l = some q := by
  intro l
  induction l with
  | nil => intro ka ta; exact ⟨(ka, ta), rfl⟩
  | cons e rest ih =>
    intro ka ta
    show ∃ q, (if e.2.1 < ta then findOldestAux (some (e.1, e.2.1)) rest
      else findOldestAux (some (ka, ta)) rest) = some q
    by_cases hlt : e.2.1 < ta
    · rw [if_pos hlt]
      exact ih e.1 e.2.1
    · rw [if_neg hlt]
      exact ih ka ta

/-- Repeated fresh insertions through `getOrFetch`: the fold of the
eviction-order test scenario. -/
def insertAll {α : Type} (ttl : Nat) (l : List (String × Nat × α))
    (c : QueryCache α) : QueryCache α :=
  l.foldl (fun c e => (c.getOrFetch e.1 e.2.2 ttl e.2.1).2) c

theorem insertAll_no_evict {α : Type} (ttl : Nat) :
    ∀ (l : List (String × Nat × α)) (c : QueryCache α),
      (∀ e ∈ l, c.lookup e.1 = none) →
      (l.map (fun e => e.1)).Nodup →
      c.entries.length + l.length ≤ c.maxSize →
      insertAll ttl l c = ⟨c.entries ++ l, c.maxSize⟩ := by
  intro l
  induction l with
  | nil =>
    intro c _ _ _
    rcases c with ⟨entries, m⟩
    simp [insertAll]
  | cons e rest ih =>
    intro c hfresh hnodup hlen
    have hlook : c.lookup e.1 = none := hfresh e (List.mem_cons_self e rest)
    have hstep : (c.getOrFetch e.1 e.2.2 ttl e.2.1).2 =
        ⟨c.entries ++ [e], c.maxSize⟩ := by
      unfold getOrFetch
      rw [hlook]
      unfold fetchStore
      have hno : ¬ c.maxSize ≤ c.entries.length := by
        simp only [List.length_cons] at hlen
        omega
      rw [if_neg hno]
      unfold setEntry
      have hany : c.entries.any (fun x => x.1 == e.1) = false := by
        rw [lookup_eq_none_iff] at hlook
        simp only [List.any_eq_false]
        intro x hx
        simpa using hlook x hx
      simp only [hany, Bool.false_eq_true, if_false]
    have : insertAll ttl (e :: rest) c =
        insertAll ttl rest ⟨c.entries ++ [e], c.maxSize⟩ := by
      unfold insertAll
      simp only [List.foldl_cons]
      rw [hstep]
    rw [this]
    rw [ih ⟨c.entries ++ [e], c.maxSize⟩ ?_ ?_ ?_]
    · simp
    · intro x hx
      rw [lookup_eq_none_iff]
      intro y hy
      simp only [List.mem_append, List.mem_singleton] at hy
      rcases hy with hy | hy
      · have := hfresh x (List.mem_cons_of_mem e hx)
        rw [lookup_eq_none_iff] at this
        exact this y hy
      · rw [hy]
        intro hxy
        simp only [List.map_cons, List.nodup_cons] at hnodup
        exact hnodup.1 (List.mem_map.mpr ⟨x, hx, hxy.symm⟩)
    · simp only [List.map_cons, List.nodup_cons] at hnodup
      exact hnodup.2
    · simp only [List.length_append, List.length_singleton]
      simp only [List.length_cons] at hlen
      omega

end QueryCache

/-- Claim C3: when an insertion through `getOrFetch` would push the cache
past its capacity, the entry with the smallest stored timestamp is
evicted before the fresh entry is stored; inserting `maxSize + 1`
distinct keys with increasing store times into an empty cache leaves
exactly the `maxSize` most recently stored entries (only the
oldest-stored one is gone); the default capacity is 100. -/
theorem c3_cache_eviction_order :
    (∀ (α : Type) (c : QueryCache α) (key : String) (v : α) (ttl now : Nat),
      c.lookup key = none → c.maxSize ≤ c.entries.length → 1 ≤ c.maxSize →
      (c.entries.map (fun e => e.1)).Nodup →
      ∃ e ∈ c.entries, (∀ e' ∈ c.entries, e.2.1 ≤ e'.2.1) ∧
        (c.getOrFetch key v ttl now).2.entries =
          (c.entries.eraseP (fun x => x.1 == e.1)) ++ [(key, now, v)]) ∧
    (∀ (α : Type) (ttl m : Nat) (l : List (String × Nat × α)),
      (l.map (fun e => e.1)).Nodup →
      List.Chain' (· < ·) (l.map (fun e => e.2.1)) →
      l.length = m + 1 → 1 ≤ m →
      (QueryCache.insertAll ttl l ⟨[], m⟩).entries = l.drop 1) ∧
    defaultMaxSize = 100 := by
  refine ⟨?_, ?_, rfl⟩
  · intro α c key v ttl now hlook hfull hpos hnodup
    have hne : c.entries ≠ [] := by
      intro h0
      rw [h0] at hfull
      simp only [List.length_nil] at hfull
      omega
    obtain ⟨x, rest, hxr⟩ := List.exists_cons_of_ne_nil hne
    have hstart : QueryCache.findOldestAux (α := α) none c.entries =
        QueryCache.findOldestAux (some (x.1, x.2.1)) rest := by
      rw [hxr]
      rfl
    obtain ⟨⟨k, t⟩, hsome⟩ := QueryCache.findOldestAux_isSome rest x.1 x.2.1
    have heq : QueryCache.findOldestAux (α := α) none c.entries = some (k, t) := by
      rw [hstart, hsome]
    obtain ⟨h1, h2, -⟩ := QueryCache.findOldestAux_spec c.entries none k t heq
    rcases h1 with h1 | h1
    · exact absurd h1 (by simp)
    rcases h1 with ⟨e, he, hek, het⟩
    refine ⟨e, he, ?_, ?_⟩
    · intro e' he'
      rw [het]
      exact h2 e' he'
    · unfold QueryCache.getOrFetch
      rw [hlook]
      unfold QueryCache.fetchStore
      rw [if_pos hfull]
      unfold QueryCache.removeOldest
      rw [heq]
      unfold QueryCache.setEntry
      have hany : (c.entries.eraseP (fun y => y.1 == k)).any
          (fun y => y.1 == key) = false := by
        simp only [List.any_eq_false]
        intro y hy
        have hymem : y ∈ c.entries := List.mem_of_mem_eraseP hy
        rw [QueryCache.lookup_eq_none_iff] at hlook
        simpa using hlook y hymem
      simp only [hany, Bool.false_eq_true, if_false]
      rw [hek]
  · intro α ttl m l hnodup hchain hlen hm
    have hlne : l ≠ [] := by
      intro h0
      rw [h0] at hlen
      simp at hlen
    have hsplit : l.dropLast ++ [l.getLast hlne] = l :=
      List.dropLast_append_getLast hlne
    set l1 := l.dropLast with hl1def
    set e := l.getLast hlne with hedef
    have hl1len : l1.length = m := by
      rw [hl1def, List.length_dropLast, hlen]
      omega
    have hl1nodup : (l1.map (fun e => e.1)).Nodup :=
      ((List.dropLast_sublist l).map _).nodup hnodup
    have hkeysplit : (l1.map (fun e => e.1)) ++ [e.1] = l.map (fun e => e.1) := by
      rw [← hsplit]
      simp
    have hkeydisj : e.1 ∉ l1.map (fun e => e.1) := by
      rw [← hkeysplit] at hnodup
      rcases List.nodup_append.mp hnodup with ⟨-, -, hd⟩
      intro hmem
      exact hd hmem (List.mem_singleton.mpr rfl)
    have hA : QueryCache.insertAll ttl l1 ⟨[], m⟩ = ⟨l1, m⟩ := by
      rw [QueryCache.insertAll_no_evict ttl l1 ⟨[], m⟩ ?_ hl1nodup ?_]
      · simp
      · intro y hy
        rw [QueryCache.lookup_eq_none_iff]
        intro z hz
        simp at hz
      · simp [hl1len]
    have hfold : QueryCache.insertAll ttl l ⟨[], m⟩ =
        ((⟨l1, m⟩ : QueryCache α).getOrFetch e.1 e.2.2 ttl e.2.1).2 := by
      unfold QueryCache.insertAll
      rw [← hsplit, List.foldl_append]
      rw [show (l1.foldl (fun c e => (QueryCache.getOrFetch c e.1 e.2.2 ttl e.2.1).2)
        (⟨[], m⟩ : QueryCache α)) = QueryCache.insertAll ttl l1 ⟨[], m⟩ from rfl]
      rw [hA]
      simp
    rw [hfold]
    have hl1ne : l1 ≠ [] := by
      intro h0
      rw [h0] at hl1len
      simp at hl1len
      omega
    obtain ⟨x, mid, hxmid⟩ := List.exists_cons_of_ne_nil hl1ne
    have hlx : l = x :: (mid ++ [e]) := by
      rw [← hsplit, hxmid]
      rfl
    have hpw : List.Pairwise (· < ·) (l.map (fun e => e.2.1)) := by
      rw [← List.chain'_iff_pairwise]
      exact hchain
    have hxmin : ∀ y ∈ mid, ¬ y.2.1 < x.2.1 := by
      intro y hy
      rw [hlx] at hpw
      simp only [List.map_cons, List.pairwise_cons] at hpw
      have := hpw.1 y.2.1 (by
        simp only [List.map_append, List.mem_append]
        exact Or.inl (List.mem_map.mpr ⟨y, hy, rfl⟩))
      omega
    have hlookup : (⟨l1, m⟩ : QueryCache α).lookup e.1 = none := by
      rw [QueryCache.lookup_eq_none_iff]
      intro y hy heq1
      exact hkeydisj (List.mem_map.mpr ⟨y, hy, heq1⟩)
    unfold QueryCache.getOrFetch
    rw [hlookup]
    unfold QueryCache.fetchStore
    rw [if_pos (by simp [hl1len])]
    have hfind : QueryCache.findOldestAux (α := α) none l1 = some (x.1, x.2.1) := by
      rw [hxmid]
      show QueryCache.findOldestAux (some (x.1, x.2.1)) mid = some (x.1, x.2.1)
      exact QueryCache.findOldestAux_of_min x.1 x.2.1 mid hxmin
    unfold QueryCache.removeOldest
    simp only [hfind]
    have herase : l1.eraseP (fun y => y.1 == x.1) = mid := by
      rw [hxmid]
      exact List.eraseP_cons_of_pos (by simp)
    unfold QueryCache.setEntry
    simp only [herase]
    have hany2 : mid.any (fun y => y.1 == e.1) = false := by
      rw [List.any_eq_false]
      intro y hy
      have hne2 : y.1 ≠ e.1 := by
        intro heq1
        exact hkeydisj
          (List.mem_map.mpr ⟨y, by rw [hxmid]; exact List.mem_cons_of_mem x hy, heq1⟩)
      simpa using hne2
    rw [if_neg (by rw [hany2]; simp)]
    rw [hlx]
    rfl

/-- Witness for C3 at a concrete input: three distinct keys into an empty
cache of capacity 2 leave exactly the two most recently stored entries. -/
theorem c3_cache_eviction_order_witness :
    (QueryCache.insertAll 300000
      [("a", 1, 10), ("b", 2, 20), ("c", 3, 30)]
      ⟨[], 2⟩).entries = [("b", 2, 20), ("c", 3, 30)] :=
  c3_cache_eviction_order.2.1 Nat 300000 2
    [("a", 1, 10), ("b", 2, 20), ("c", 3, 30)]
    (by decide) (by simp [List.chain'_cons]) rfl (by decide)

namespace DBState

theorem addRecord_ok {κ ρ : Type} [DecidableEq κ] (key : ρ → κ)
    (l : List ρ) (r : ρ) (l' : List ρ)
    (h : addRecord key l r = Except.ok l') : l' = l ++ [r] := by
  unfold addRecord at h
  split at h
  · cases h
  · injection h with h
    exact h.symm

theorem addBackup_ok_spec (st : DBState) (b : Backup) (k : Nat)
    (st1 : DBState) (h : st.addBackup b = Except.ok (k, st1)) :
    k = b.timestamp ∧ st1.backups = st.backups ++ [b] ∧
    st1.products = st.products ∧ st1.sales = st.sales ∧
    st1.settings = st.settings ∧ st1.dbInitialized = st.dbInitialized ∧
    st1.now = st.now ∧ st1.auditStoreAvailable = st.auditStoreAvailable ∧
    st1.auditAddFails = st.auditAddFails := by
  unfold addBackup at h
  split at h
  · cases h
  · rename_i hinit
    rcases hrec : addRecord Backup.timestamp st.backups b with e | l
    · rw [hrec] at h
      cases h
    · rw [hrec] at h
      have hl := addRecord_ok Backup.timestamp st.backups b l hrec
      injection h with h
      injection h with hk hst
      subst hl
      refine ⟨hk.symm, ?_, ?_, ?_, ?_, ?_, ?_, ?_, ?_⟩ <;>
        (rw [← hst]; simp)

theorem deleteBackup_ok_spec (st : DBState) (k : Nat) (st1 : DBState)
    (h : st.deleteBackup k = Except.ok st1) :
    st1.backups = st.backups.filter (fun b => decide (b.timestamp ≠ k)) ∧
    st1.products = st.products ∧ st1.sales = st.sales ∧
    st1.settings = st.settings ∧ st1.dbInitialized = st.dbInitialized ∧
    st1.now = st.now ∧ st1.auditStoreAvailable = st.auditStoreAvailable ∧
    st1.auditAddFails = st.auditAddFails := by
  unfold deleteBackup at h
  split at h
  · cases h
  · injection h with h
    refine ⟨?_, ?_, ?_, ?_, ?_, ?_, ?_, ?_⟩ <;>
      (rw [← h]; simp)

theorem deleteBackupsLoop_fields (del : List Backup) :
    ∀ (st : DBState),
      (deleteBackupsLoop st del).products = st.products ∧
      (deleteBackupsLoop st del).sales = st.sales ∧
      (deleteBackupsLoop st del).settings = st.settings ∧
      (deleteBackupsLoop st del).dbInitialized = st.dbInitialized ∧
      (deleteBackupsLoop st del).now = st.now ∧
      (deleteBackupsLoop st del).auditStoreAvailable = st.auditStoreAvailable ∧
      (deleteBackupsLoop st del).auditAddFails = st.auditAddFails := by
  induction del with
  | nil => intro st; exact ⟨rfl, rfl, rfl, rfl, rfl, rfl, rfl⟩
  | cons b rest ih =>
    intro st
    unfold deleteBackupsLoop
    rcases hdel : st.deleteBackup b.timestamp with e | st'
    · exact ⟨rfl, rfl, rfl, rfl, rfl, rfl, rfl⟩
    · rcases deleteBackup_ok_spec st b.timestamp st' hdel with
        ⟨-, h1, h2, h3, h4, h5, h6, h7⟩
      rcases ih st' with ⟨g1, g2, g3, g4, g5, g6, g7⟩
      exact ⟨g1.trans h1, g2.trans h2, g3.trans h3, g4.trans h4,
        g5.trans h5, g6.trans h6, g7.trans h7⟩

@[simp] theorem deleteBackupsLoop_products (del : List Backup) (st : DBState) :
    (deleteBackupsLoop st del).products = st.products :=
  (deleteBackupsLoop_fields del st).1

@[simp] theorem deleteBackupsLoop_sales (del : List Backup) (st : DBState) :
    (deleteBackupsLoop st del).sales = st.sales :=
  (deleteBackupsLoop_fields del st).2.1

@[simp] theorem deleteBackupsLoop_settings (del : List Backup) (st : DBState) :
    (deleteBackupsLoop st del).settings = st.settings :=
  (deleteBackupsLoop_fields del st).2.2.1

@[simp] theorem deleteBackupsLoop_dbInitialized (del : List Backup) (st : DBState) :
    (deleteBackupsLoop st del).dbInitialized = st.dbInitialized :=
  (deleteBackupsLoop_fields del st).2.2.2.1

@[simp] theorem deleteBackupsLoop_now (del : List Backup) (st : DBState) :
    (deleteBackupsLoop st del).now = st.now :=
  (deleteBackupsLoop_fields del st).2.2.2.2.1

@[simp] theorem deleteBackupsLoop_auditStoreAvailable (del : List Backup)
    (st : DBState) :
    (deleteBackupsLoop st del).auditStoreAvailable = st.auditStoreAvailable :=
  (deleteBackupsLoop_fields del st).2.2.2.2.2.1

@[simp] theorem deleteBackupsLoop_auditAddFails (del : List Backup)
    (st : DBState) :
    (deleteBackupsLoop st del).auditAddFails = st.auditAddFails :=
  (deleteBackupsLoop_fields del st).2.2.2.2.2.2

@[simp] theorem cleanupOldBackups_products (st : DBState) (m : Nat) :
    (st.cleanupOldBackups m).products = st.products := by
  unfold cleanupOldBackups
  by_cases h : m < st.backups.length <;> simp [h]

@[simp] theorem cleanupOldBackups_sales (st : DBState) (m : Nat) :
    (st.cleanupOldBackups m).sales = st.sales := by
  unfold cleanupOldBackups
  by_cases h : m < st.backups.length <;> simp [h]

@[simp] theorem cleanupOldBackups_settings (st : DBState) (m : Nat) :
    (st.cleanupOldBackups m).settings = st.settings := by
  unfold cleanupOldBackups
  by_cases h : m < st.backups.length <;> simp [h]

@[simp] theorem cleanupOldBackups_dbInitialized (st : DBState) (m : Nat) :
    (st.cleanupOldBackups m).dbInitialized = st.dbInitialized := by
  unfold cleanupOldBackups
  by_cases h : m < st.backups.length <;> simp [h]

@[simp] theorem cleanupOldBackups_now (st : DBState) (m : Nat) :
    (st.cleanupOldBackups m).now = st.now := by
  unfold cleanupOldBackups
  by_cases h : m < st.backups.length <;> simp [h]

@[simp] theorem cleanupOldBackups_auditStoreAvailable (st : DBState) (m : Nat) :
    (st.cleanupOldBackups m).auditStoreAvailable = st.auditStoreAvailable := by
  unfold cleanupOldBackups
  by_cases h : m < st.backups.length <;> simp [h]

@[simp] theorem cleanupOldBackups_auditAddFails (st : DBState) (m : Nat) :
    (st.cleanupOldBackups m).auditAddFails = st.auditAddFails := by
  unfold cleanupOldBackups
  by_cases h : m < st.backups.length <;> simp [h]

theorem createBackup_fields (st : DBState) (b : String) (d : Option SysData) :
    (st.createBackup b d).2.products = st.products ∧
    (st.createBackup b d).2.sales = st.sales ∧
    (st.createBackup b d).2.settings = st.settings ∧
    (st.createBackup b d).2.dbInitialized = st.dbInitialized ∧
    (st.createBackup b d).2.now = st.now ∧
    (st.createBackup b d).2.auditStoreAvailable = st.auditStoreAvailable ∧
    (st.createBackup b d).2.auditAddFails = st.auditAddFails := by
  unfold createBackup
  simp only []
  rcases hadd : st.addBackup
      ⟨st.now, b, (match d with | some x => x | none => st.getSystemData), 3⟩
    with e | ⟨k, st1⟩
  · exact ⟨rfl, rfl, rfl, rfl, rfl, rfl, rfl⟩
  · rcases addBackup_ok_spec st _ k st1 hadd with
      ⟨-, -, h1, h2, h3, h4, h5, h6, h7⟩
    refine ⟨?_, ?_, ?_, ?_, ?_, ?_, ?_⟩ <;> simp [h1, h2, h3, h4, h5, h6, h7]

@[simp] theorem createBackup_products (st : DBState) (b : String)
    (d : Option SysData) : (st.createBackup b d).2.products = st.products :=
  (createBackup_fields st b d).1

@[simp] theorem createBackup_sales (st : DBState) (b : String)
    (d : Option SysData) : (st.createBackup b d).2.sales = st.sales :=
  (createBackup_fields st b d).2.1

@[simp] theorem createBackup_settings (st : DBState) (b : String)
    (d : Option SysData) : (st.createBackup b d).2.settings = st.settings :=
  (createBackup_fields st b d).2.2.1

@[simp] theorem createBackup_dbInitialized (st : DBState) (b : String)
    (d : Option SysData) :
    (st.createBackup b d).2.dbInitialized = st.dbInitialized :=
  (createBackup_fields st b d).2.2.2.1

@[simp] theorem createBackup_now (st : DBState) (b : String)
    (d : Option SysData) : (st.createBackup b d).2.now = st.now :=
  (createBackup_fields st b d).2.2.2.2.1

@[simp] theorem createBackup_auditStoreAvailable (st : DBState) (b : String)
    (d : Option SysData) :
    (st.createBackup b d).2.auditStoreAvailable = st.auditStoreAvailable :=
  (createBackup_fields st b d).2.2.2.2.2.1

@[simp] theorem createBackup_auditAddFails (st : DBState) (b : String)
    (d : Option SysData) :
    (st.createBackup b d).2.auditAddFails = st.auditAddFails :=
  (createBackup_fields st b d).2.2.2.2.2.2

end DBState

namespace DBState

theorem mergeProducts_spec (st : DBState) (ps : Option (List Product))
    (hinit : st.dbInitialized = true)
    (hnodupLegacy : ((ps.getD []).map Product.id).Nodup) :
    ∃ st', st.mergeProducts ps = Except.ok st' ∧
      st'.products = st.products ++ (ps.getD []).filter
        (fun p => decide (p.id ∉ st.products.map Product.id)) ∧
      st'.sales = st.sales ∧ st'.settings = st.settings ∧
      st'.backups = st.backups ∧ st'.dbInitialized = true ∧
      st'.now = st.now ∧
      ((ps.getD []).filter
        (fun p => decide (p.id ∉ st.products.map Product.id)) = [] →
        st' = st) := by
  unfold mergeProducts
  rcases ps with _ | l
  · exact ⟨st, rfl, by simp, rfl, rfl, rfl, hinit, rfl, fun _ => rfl⟩
  · simp only [Option.getD_some] at hnodupLegacy ⊢
    by_cases hl : l.isEmpty
    · rw [if_pos hl]
      refine ⟨st, rfl, ?_, rfl, rfl, rfl, hinit, rfl, fun _ => rfl⟩
      rw [List.isEmpty_iff] at hl
      simp [hl]
    · rw [if_neg hl]
      by_cases hnp : (l.filter
          (fun p => decide (p.id ∉ st.products.map Product.id))).isEmpty
      · rw [if_pos hnp]
        refine ⟨st, rfl, ?_, rfl, rfl, rfl, hinit, rfl, fun _ => rfl⟩
        rw [List.isEmpty_iff] at hnp
        rw [hnp]
        simp
      · rw [if_neg hnp]
        have hok : bulkAddOk Product.id st.products
            (l.filter (fun p => decide (p.id ∉ st.products.map Product.id))) := by
          constructor
          · exact ((List.filter_sublist l).map Product.id).nodup hnodupLegacy
          · intro r hr
            have := (List.mem_filter.mp hr).2
            exact of_decide_eq_true this
        unfold bulkAddProducts
        rw [hinit]
        simp only [Bool.not_true, Bool.false_or, Option.getD_some, hnp,
          Bool.false_eq_true, if_false]
        rw [if_pos hok]
        refine ⟨_, rfl, rfl, rfl, rfl, rfl, rfl, rfl, ?_⟩
        intro hempty
        rw [List.isEmpty_iff] at hnp
        exact absurd hempty hnp

theorem mergeSales_spec (st : DBState) (ss : Option (List Sale))
    (hinit : st.dbInitialized = true)
    (hnodupLegacy : ((ss.getD []).map Sale.id).Nodup) :
    ∃ st', st.mergeSales ss = Except.ok st' ∧
      st'.sales = st.sales ++ (ss.getD []).filter
        (fun s => decide (s.id ∉ st.sales.map Sale.id)) ∧
      st'.products = st.products ∧ st'.settings = st.settings ∧
      st'.backups = st.backups ∧ st'.dbInitialized = true ∧
      st'.now = st.now ∧
      ((ss.getD []).filter
        (fun s => decide (s.id ∉ st.sales.map Sale.id)) = [] →
        st' = st) := by
  unfold mergeSales
  rcases ss with _ | l
  · exact ⟨st, rfl, by simp, rfl, rfl, rfl, hinit, rfl, fun _ => rfl⟩
  · simp only [Option.getD_some] at hnodupLegacy ⊢
    by_cases hl : l.isEmpty
    · rw [if_pos hl]
      refine ⟨st, rfl, ?_, rfl, rfl, rfl, hinit, rfl, fun _ => rfl⟩
      rw [List.isEmpty_iff] at hl
      simp [hl]
    · rw [if_neg hl]
      by_cases hnp : (l.filter
          (fun s => decide (s.id ∉ st.sales.map Sale.id))).isEmpty
      · rw [if_pos hnp]
        refine ⟨st, rfl, ?_, rfl, rfl, rfl, hinit, rfl, fun _ => rfl⟩
        rw [List.isEmpty_iff] at hnp
        rw [hnp]
        simp
      · rw [if_neg hnp]
        have hok : bulkAddOk Sale.id st.sales
            (l.filter (fun s => decide (s.id ∉ st.sales.map Sale.id))) := by
          constructor
          · exact ((List.filter_sublist l).map Sale.id).nodup hnodupLegacy
          · intro r hr
            have := (List.mem_filter.mp hr).2
            exact of_decide_eq_true this
        unfold bulkAddSales
        rw [hinit]
        simp only [Bool.not_true, Bool.false_or, Option.getD_some, hnp,
          Bool.false_eq_true, if_false]
        rw [if_pos hok]
        refine ⟨_, rfl, rfl, rfl, rfl, rfl, rfl, rfl, ?_⟩
        intro hempty
        rw [List.isEmpty_iff] at hnp
        exact absurd hempty hnp

end DBState

theorem mergeData_eq (st st1 st2 : DBState) (data : SysData)
    (h1 : st.mergeProducts data.products = Except.ok st1)
    (h2 : st1.mergeSales data.sales = Except.ok st2) :
    st.mergeData data = Except.ok st2 := by
  unfold DBState.mergeData
  rw [h1]
  show (match st1.mergeSales data.sales with
    | Except.error e => Except.error e
    | Except.ok st2 => Except.ok st2) = Except.ok st2
  rw [h2]

/-- Claim C1: the migration merge is id-based — it inserts exactly the
legacy records whose id is not among the existing ids of the collection,
keeping every existing record unchanged in place — the resulting
collections have no duplicate ids, a second merge of the same legacy
payload changes nothing, and a non-empty store routes
`migrateFromLocalStorage` through exactly this merge. -/
theorem c1_merge_id_based_idempotent
    (st : DBState) (data : SysData)
    (hinit : st.dbInitialized = true)
    (hsp : (st.products.map Product.id).Nodup)
    (hss : (st.sales.map Sale.id).Nodup)
    (hlp : ((data.products.getD []).map Product.id).Nodup)
    (hls : ((data.sales.getD []).map Sale.id).Nodup) :
    ∃ st', st.mergeData data = Except.ok st' ∧
      st'.products = st.products ++ (data.products.getD []).filter
        (fun p => decide (p.id ∉ st.products.map Product.id)) ∧
      st'.sales = st.sales ++ (data.sales.getD []).filter
        (fun s => decide (s.id ∉ st.sales.map Sale.id)) ∧
      (st'.products.map Product.id).Nodup ∧
      (st'.sales.map Sale.id).Nodup ∧
      st'.mergeData data = Except.ok st' ∧
      ((0 < st.products.length ∨ 0 < st.sales.length) →
        (st.migrateFromLocalStorage (some data)).products = st'.products ∧
        (st.migrateFromLocalStorage (some data)).sales = st'.sales) := by
  obtain ⟨st1, he1, hp1, hs1, -, -, hi1, -, -⟩ :=
    DBState.mergeProducts_spec st data.products hinit hlp
  obtain ⟨st2, he2, hs2, hp2, -, -, hi2, -, -⟩ :=
    DBState.mergeSales_spec st1 data.sales hi1 hls
  rw [hs1] at hs2
  have hp2' : st2.products = st.products ++ (data.products.getD []).filter
      (fun p => decide (p.id ∉ st.products.map Product.id)) := by
    rw [hp2, hp1]
  have hmerge : st.mergeData data = Except.ok st2 :=
    mergeData_eq st st1 st2 data he1 he2
  have hnodupP : (st2.products.map Product.id).Nodup := by
    rw [hp2', List.map_append]
    rw [List.nodup_append]
    refine ⟨hsp, ((List.filter_sublist _).map Product.id).nodup hlp, ?_⟩
    intro a ha hb
    rcases List.mem_map.mp hb with ⟨p, hp, hpa⟩
    have := of_decide_eq_true (List.mem_filter.mp hp).2
    rw [hpa] at this
    exact this ha
  have hnodupS : (st2.sales.map Sale.id).Nodup := by
    rw [hs2, List.map_append]
    rw [List.nodup_append]
    refine ⟨hss, ((List.filter_sublist _).map Sale.id).nodup hls, ?_⟩
    intro a ha hb
    rcases List.mem_map.mp hb with ⟨p, hp, hpa⟩
    have := of_decide_eq_true (List.mem_filter.mp hp).2
    rw [hpa] at this
    exact this ha
  have hfeP : (data.products.getD []).filter
      (fun p => decide (p.id ∉ st2.products.map Product.id)) = [] := by
    rw [List.filter_eq_nil_iff]
    intro p hp
    simp only [decide_eq_true_iff, Decidable.not_not]
    rw [hp2', List.map_append, List.mem_append]
    by_cases hin : p.id ∈ st.products.map Product.id
    · exact Or.inl hin
    · exact Or.inr (List.mem_map.mpr
        ⟨p, List.mem_filter.mpr ⟨hp, decide_eq_true hin⟩, rfl⟩)
  have hfeS : (data.sales.getD []).filter
      (fun x => decide (x.id ∉ st2.sales.map Sale.id)) = [] := by
    rw [List.filter_eq_nil_iff]
    intro p hp
    simp only [decide_eq_true_iff, Decidable.not_not]
    rw [hs2, List.map_append, List.mem_append]
    by_cases hin : p.id ∈ st.sales.map Sale.id
    · exact Or.inl hin
    · exact Or.inr (List.mem_map.mpr
        ⟨p, List.mem_filter.mpr ⟨hp, decide_eq_true hin⟩, rfl⟩)
  obtain ⟨st3, he3, -, -, -, -, -, -, hemp3⟩ :=
    DBState.mergeProducts_spec st2 data.products hi2 hlp
  rw [hemp3 hfeP] at he3
  obtain ⟨st4, he4, -, -, -, -, -, -, hemp4⟩ :=
    DBState.mergeSales_spec st2 data.sales hi2 hls
  rw [hemp4 hfeS] at he4
  have hidem : st2.mergeData data = Except.ok st2 :=
    mergeData_eq st2 st2 st2 data he3 he4
  refine ⟨st2, hmerge, hp2', hs2, hnodupP, hnodupS, hidem, ?_⟩
  intro hcount
  have hiA : (st.logAudit "migration_start" "itemsCount").dbInitialized = true := by
    simp [hinit]
  obtain ⟨stA1, ge1, gp1, gs1, -, -, giA1, -, -⟩ :=
    DBState.mergeProducts_spec (st.logAudit "migration_start" "itemsCount")
      data.products hiA hlp
  obtain ⟨stA2, ge2, gs2, gp2, -, -, -, -, -⟩ :=
    DBState.mergeSales_spec stA1 data.sales giA1 hls
  have gm : (st.logAudit "migration_start" "itemsCount").mergeData data =
      Except.ok stA2 :=
    mergeData_eq _ stA1 stA2 data ge1 ge2
  simp only [DBState.logAudit_products, DBState.logAudit_sales] at gp1 gs1
  rw [gs1] at gs2
  have hmig : st.migrateFromLocalStorage (some data) =
      DBState.migrateTail stA2 data := by
    unfold DBState.migrateFromLocalStorage
    show (if (!(st.logAudit "migration_start" "itemsCount").dbInitialized) = true
      then (st.logAudit "migration_start" "itemsCount").logAudit
        "migration_error" "getStoreCount"
      else if 0 < (st.logAudit "migration_start" "itemsCount").products.length ∨
          0 < (st.logAudit "migration_start" "itemsCount").sales.length then
        match (st.logAudit "migration_start" "itemsCount").mergeData data with
        | Except.error _ => (st.logAudit "migration_start" "itemsCount").logAudit
            "migration_error" "merge"
        | Except.ok st2 => DBState.migrateTail st2 data
      else
        DBState.migrateTail
          (((st.logAudit "migration_start" "itemsCount").saveSystemData data).2)
          data) = DBState.migrateTail stA2 data
    rw [if_neg (by simp [hinit])]
    rw [if_pos (by simpa using hcount)]
    rw [gm]
  rw [hmig]
  unfold DBState.migrateTail
  constructor
  · simp only [DBState.logAudit_products, DBState.createBackup_products]
    rw [gp2, gp1, hp2']
  · simp only [DBState.logAudit_sales, DBState.createBackup_sales]
    rw [gs2, hs2]

/-- State with one existing product, for the C1 witness. -/
def mergeWitnessState : DBState :=
  { baseState with products := [⟨1, "a", 3, 5, 0⟩] }

/-- Legacy payload whose first product id collides with the store. -/
def mergeWitnessData : SysData :=
  { products := some [⟨1, "b", 9, 9, 0⟩, ⟨2, "c", 4, 5, 0⟩],
    sales := some [], settings := none }

/-- Witness for C1 at a concrete input: merging a legacy payload with one
colliding and one fresh product id into a one-product store. -/
theorem c1_merge_id_based_idempotent_witness :
    ∃ st', mergeWitnessState.mergeData mergeWitnessData = Except.ok st' ∧
      st'.products = mergeWitnessState.products ++
        (mergeWitnessData.products.getD []).filter
          (fun p => decide (p.id ∉ mergeWitnessState.products.map Product.id)) ∧
      st'.sales = mergeWitnessState.sales ++
        (mergeWitnessData.sales.getD []).filter
          (fun s => decide (s.id ∉ mergeWitnessState.sales.map Sale.id)) ∧
      (st'.products.map Product.id).Nodup ∧
      (st'.sales.map Sale.id).Nodup ∧
      st'.mergeData mergeWitnessData = Except.ok st' ∧
      ((0 < mergeWitnessState.products.length ∨
          0 < mergeWitnessState.sales.length) →
        (mergeWitnessState.migrateFromLocalStorage
            (some mergeWitnessData)).products = st'.products ∧
        (mergeWitnessState.migrateFromLocalStorage
            (some mergeWitnessData)).sales = st'.sales) :=
  c1_merge_id_based_idempotent mergeWitnessState mergeWitnessData
    (by decide) (by decide) (by decide) (by decide) (by decide)

namespace DBState

theorem updateProduct_of_init (st : DBState) (p : Product)
    (hinit : st.dbInitialized = true) :
    st.updateProduct p = Except.ok
      (DBState.afterWrite { st with products := putRecord Product.id st.products p }
        storeProducts "update") := by
  unfold updateProduct
  rw [hinit]
  rfl

end DBState

namespace BackgroundSync

@[simp] theorem integrityUpdateLoop_sales (neg : List Product) :
    ∀ (st : DBState), (integrityUpdateLoop st neg).1.sales = st.sales := by
  induction neg with
  | nil => intro st; rfl
  | cons p rest ih =>
    intro st
    unfold integrityUpdateLoop
    rcases hup : st.updateProduct (clampStock p) with e | st'
    · rfl
    · rw [ih st']
      unfold DBState.updateProduct at hup
      split at hup
      · cases hup
      · injection hup with hup
        rw [← hup]
        simp

@[simp] theorem integrityUpdateLoop_now (neg : List Product) :
    ∀ (st : DBState), (integrityUpdateLoop st neg).1.now = st.now := by
  induction neg with
  | nil => intro st; rfl
  | cons p rest ih =>
    intro st
    unfold integrityUpdateLoop
    rcases hup : st.updateProduct (clampStock p) with e | st'
    · rfl
    · rw [ih st']
      unfold DBState.updateProduct at hup
      split at hup
      · cases hup
      · injection hup with hup
        rw [← hup]
        simp

theorem integrityUpdateLoop_spec :
    ∀ (neg : List Product) (st : DBState),
      st.dbInitialized = true →
      (neg.map Product.id).Nodup →
      (∀ p ∈ neg, p ∈ st.products) →
      (∀ p ∈ neg, ∀ q ∈ st.products, q.id = p.id → q = p) →
      (integrityUpdateLoop st neg).2 = true ∧
      (integrityUpdateLoop st neg).1.products =
        st.products.map (fun q =>
          if q.id ∈ neg.map Product.id then clampStock q else q) ∧
      (integrityUpdateLoop st neg).1.dbInitialized = true := by
  intro neg
  induction neg with
  | nil =>
    intro st hinit _ _ _
    refine ⟨rfl, ?_, hinit⟩
    show st.products = _
    symm
    apply (List.map_congr_left ?_).trans (List.map_id st.products)
    intro q hq
    simp
  | cons p rest ih =>
    intro st hinit hnodup hmem huniq
    have hpmem : p ∈ st.products := hmem p (List.mem_cons_self p rest)
    have hany : st.products.any (fun x => decide (x.id = (clampStock p).id)) = true := by
      simp only [List.any_eq_true]
      exact ⟨p, hpmem, by simp [clampStock]⟩
    have hput : DBState.putRecord Product.id st.products (clampStock p) =
        st.products.map (fun q => if q.id = p.id then clampStock q else q) := by
      unfold DBState.putRecord
      rw [if_pos hany]
      apply List.map_congr_left
      intro q hq
      by_cases hqp : q.id = (clampStock p).id
      · rw [if_pos hqp]
        have hq1 : q.id = p.id := by simpa [clampStock] using hqp
        rw [if_pos hq1]
        rw [huniq p (List.mem_cons_self p rest) q hq hq1]
      · rw [if_neg hqp]
        have hq1 : ¬ q.id = p.id := by simpa [clampStock] using hqp
        rw [if_neg hq1]
    unfold integrityUpdateLoop
    rw [DBState.updateProduct_of_init st (clampStock p) hinit]
    set st' := DBState.afterWrite
      { st with products := DBState.putRecord Product.id st.products (clampStock p) }
      storeProducts "update" with hst'
    have hst'prod : st'.products =
        st.products.map (fun q => if q.id = p.id then clampStock q else q) := by
      rw [hst']
      rw [DBState.afterWrite_products]
      exact hput
    have hst'init : st'.dbInitialized = true := by
      rw [hst']
      simp [hinit]
    have hridsnp : (rest.map Product.id).Nodup := by
      simp only [List.map_cons, List.nodup_cons] at hnodup
      exact hnodup.2
    have hpidnr : p.id ∉ rest.map Product.id := by
      simp only [List.map_cons, List.nodup_cons] at hnodup
      exact hnodup.1
    have hmem' : ∀ p' ∈ rest, p' ∈ st'.products := by
      intro p' hp'
      rw [hst'prod]
      have hne : ¬ p'.id = p.id := by
        intro h0
        exact hpidnr (h0 ▸ List.mem_map.mpr ⟨p', hp', rfl⟩)
      have hx : (if p'.id = p.id then clampStock p' else p') ∈
          List.map (fun q => if q.id = p.id then clampStock q else q) st.products :=
        List.mem_map.mpr ⟨p', hmem p' (List.mem_cons_of_mem p hp'), rfl⟩
      simpa [hne] using hx
    have huniq' : ∀ p' ∈ rest, ∀ q ∈ st'.products, q.id = p'.id → q = p' := by
      intro p' hp' q hq hqid
      rw [hst'prod] at hq
      rcases List.mem_map.mp hq with ⟨q0, hq0, hq0e⟩
      by_cases hq0p : q0.id = p.id
      · rw [if_pos hq0p] at hq0e
        have : q.id = q0.id := by rw [← hq0e]; simp [clampStock]
        rw [hqid] at this
        have hne : ¬ p'.id = p.id := by
          intro h0
          exact hpidnr (h0 ▸ List.mem_map.mpr ⟨p', hp', rfl⟩)
        exact absurd (this.trans hq0p) hne
      · rw [if_neg hq0p] at hq0e
        rw [← hq0e] at hqid ⊢
        exact huniq p' (List.mem_cons_of_mem p hp') q0 hq0 hqid
    rcases ih st' hst'init hridsnp hmem' huniq' with ⟨hflag, hprods, hini⟩
    refine ⟨hflag, ?_, hini⟩
    rw [hprods, hst'prod, List.map_map]
    apply List.map_congr_left
    intro q hq
    simp only [Function.comp]
    by_cases hqp : q.id = p.id
    · rw [if_pos hqp]
      have hcid : (clampStock q).id = q.id := by simp [clampStock]
      have h1 : (clampStock q).id ∉ rest.map Product.id := by
        rw [hcid, hqp]
        exact hpidnr
      rw [if_neg h1]
      have h2 : q.id ∈ (p :: rest).map Product.id := by
        rw [hqp]
        simp
      rw [if_pos h2]
    · rw [if_neg hqp]
      by_cases hqr : q.id ∈ rest.map Product.id
      · rw [if_pos hqr, if_pos (by simp [hqr])]
      · rw [if_neg hqr, if_neg (by simp [hqp, hqr])]

end BackgroundSync

namespace BackgroundSync

@[simp] theorem repairRun_sales (st : DBState) :
    (repairRun st).1.sales = st.sales := by
  unfold repairRun
  split <;> simp

theorem integrityUpdateLoop_flag_init :
    ∀ (l : List Product) (st : DBState), st.dbInitialized = true →
      (integrityUpdateLoop st l).2 = true ∧
      (integrityUpdateLoop st l).1.dbInitialized = true := by
  intro l
  induction l with
  | nil => intro st hinit; exact ⟨rfl, hinit⟩
  | cons p rest ih =>
    intro st hinit
    unfold integrityUpdateLoop
    rw [DBState.updateProduct_of_init st (clampStock p) hinit]
    exact ih _ (by simp [hinit])

theorem repairRun_flag_init (st : DBState) (hinit : st.dbInitialized = true) :
    (repairRun st).2 = true ∧ (repairRun st).1.dbInitialized = true := by
  unfold repairRun
  split
  · exact integrityUpdateLoop_flag_init _ st hinit
  · exact ⟨rfl, hinit⟩

theorem checkDataIntegrity_fst_of_init (st : DBState)
    (hinit : st.dbInitialized = true) :
    (checkDataIntegrity st).1 = integrityIssues st := by
  unfold checkDataIntegrity
  rw [if_neg (by simp [hinit])]
  rw [if_neg (by simp [(repairRun_flag_init st hinit).1])]
  split <;> rfl

theorem checkDataIntegrity_products_of_init (st : DBState)
    (hinit : st.dbInitialized = true) :
    (checkDataIntegrity st).2.products = (repairRun st).1.products := by
  unfold checkDataIntegrity
  rw [if_neg (by simp [hinit])]
  rw [if_neg (by simp [(repairRun_flag_init st hinit).1])]
  split <;> simp

theorem checkDataIntegrity_sales_all (st : DBState) :
    (checkDataIntegrity st).2.sales = st.sales := by
  unfold checkDataIntegrity
  split
  · rfl
  · split
    · simp
    · split <;> simp

end BackgroundSync

/-- Claim C6: one integrity-check run persists stock 0 for every product
whose stock was negative and changes nothing else about the product list;
sales are never modified (empty-items sales are only flagged in the
returned issue list); duplicate product ids are only flagged; and a run
that finds no issues leaves the whole state (audit log included)
untouched. -/
theorem c6_integrity_check_repair :
    (∀ (st : DBState), st.dbInitialized = true →
      (st.products.map Product.id).Nodup →
      (BackgroundSync.checkDataIntegrity st).2.products =
        st.products.map (fun p =>
          if p.stock < 0 then { p with stock := 0 } else p)) ∧
    (∀ (st : DBState),
      (BackgroundSync.checkDataIntegrity st).2.sales = st.sales) ∧
    (∀ (st : DBState), (BackgroundSync.checkDataIntegrity st).1 = [] →
      (BackgroundSync.checkDataIntegrity st).2 = st) ∧
    (∀ (st : DBState), st.dbInitialized = true →
      0 < (BackgroundSync.emptySales st).length →
      (toString (BackgroundSync.emptySales st).length ++ " vendas sem itens")
        ∈ (BackgroundSync.checkDataIntegrity st).1) ∧
    (∀ (st : DBState), st.dbInitialized = true →
      (∀ p ∈ st.products, ¬ p.stock < 0) →
      (BackgroundSync.checkDataIntegrity st).2.products = st.products ∧
      (0 < (BackgroundSync.duplicateIds st).length →
        (toString (BackgroundSync.duplicateIds st).length ++
          " IDs de produto duplicados")
          ∈ (BackgroundSync.checkDataIntegrity st).1)) := by
  refine ⟨?_, BackgroundSync.checkDataIntegrity_sales_all, ?_, ?_, ?_⟩
  · intro st hinit hnodup
    rw [BackgroundSync.checkDataIntegrity_products_of_init st hinit]
    unfold BackgroundSync.repairRun
    by_cases hneg : 0 < (BackgroundSync.negativeStock st).length
    · rw [if_pos hneg]
      have hsub : (BackgroundSync.negativeStock st).Sublist st.products :=
        List.filter_sublist st.products
      obtain ⟨-, hprods, -⟩ := BackgroundSync.integrityUpdateLoop_spec
        (BackgroundSync.negativeStock st) st hinit
        ((hsub.map Product.id).nodup hnodup)
        (fun p hp => (List.mem_filter.mp hp).1)
        (fun p hp q hq hqp => List.inj_on_of_nodup_map hnodup hq
          (List.mem_filter.mp hp).1 hqp)
      rw [hprods]
      apply List.map_congr_left
      intro q hq
      by_cases hqneg : q.stock < 0
      · have hqm : q.id ∈ (BackgroundSync.negativeStock st).map Product.id :=
          List.mem_map.mpr ⟨q, List.mem_filter.mpr ⟨hq, decide_eq_true hqneg⟩, rfl⟩
        rw [if_pos hqm, if_pos hqneg]
        unfold BackgroundSync.clampStock
        have : max (0 : Int) q.stock = 0 := max_eq_left (le_of_lt hqneg)
        rw [this]
      · have hqm : q.id ∉ (BackgroundSync.negativeStock st).map Product.id := by
          intro hmem
          rcases List.mem_map.mp hmem with ⟨p, hp, hpq⟩
          have hpprod := (List.mem_filter.mp hp).1
          have hpneg := of_decide_eq_true (List.mem_filter.mp hp).2
          have : p = q := List.inj_on_of_nodup_map hnodup hpprod hq hpq
          rw [this] at hpneg
          exact hqneg hpneg
        rw [if_neg hqm, if_neg hqneg]
    · rw [if_neg hneg]
      symm
      apply (List.map_congr_left ?_).trans (List.map_id st.products)
      intro q hq
      have : ¬ q.stock < 0 := by
        intro h0
        exact hneg (List.length_pos.mpr (List.ne_nil_of_mem
          (List.mem_filter.mpr ⟨hq, decide_eq_true h0⟩)))
      simp [this]
  · intro st h
    unfold BackgroundSync.checkDataIntegrity at h ⊢
    rcases hini : st.dbInitialized with - | -
    · rw [if_pos (by simp [hini])] at h
      simp at h
    · rw [if_neg (by simp [hini])] at h ⊢
      rcases hflag : (BackgroundSync.repairRun st).2 with - | -
      · rw [if_pos (by simp [hflag])] at h
        simp at h
      · rw [if_neg (by simp [hflag])] at h ⊢
        by_cases hiss : 0 < (BackgroundSync.integrityIssues st).length
        · rw [if_pos hiss] at h
          have h' : BackgroundSync.integrityIssues st = [] := h
          rw [h'] at hiss
          simp at hiss
        · rw [if_neg hiss] at h ⊢
          show (BackgroundSync.repairRun st).1 = st
          have hnil : BackgroundSync.integrityIssues st = [] := by
            rcases Nat.eq_zero_or_pos (BackgroundSync.integrityIssues st).length
              with h0 | h0
            · exact List.eq_nil_of_length_eq_zero h0
            · exact absurd h0 hiss
          have hnegnil : ¬ 0 < (BackgroundSync.negativeStock st).length := by
            intro hpos
            unfold BackgroundSync.integrityIssues at hnil
            rw [if_pos hpos] at hnil
            simp at hnil
          unfold BackgroundSync.repairRun
          rw [if_neg hnegnil]
  · intro st hinit hpos
    rw [BackgroundSync.checkDataIntegrity_fst_of_init st hinit]
    unfold BackgroundSync.integrityIssues
    rw [if_pos hpos]
    simp
  · intro st hinit hnoneg
    constructor
    · rw [BackgroundSync.checkDataIntegrity_products_of_init st hinit]
      unfold BackgroundSync.repairRun
      have hnegnil : BackgroundSync.negativeStock st = [] := by
        unfold BackgroundSync.negativeStock
        rw [List.filter_eq_nil_iff]
        intro p hp
        simpa using hnoneg p hp
      rw [if_neg (by rw [hnegnil]; simp)]
    · intro hdup
      rw [BackgroundSync.checkDataIntegrity_fst_of_init st hinit]
      unfold BackgroundSync.integrityIssues
      rw [if_pos hdup]
      simp

/-- State with one negative-stock product, for the C6 witness. -/
def integrityWitnessState : DBState :=
  { baseState with products := [⟨1, "a", -3, 5, 0⟩, ⟨2, "b", 4, 5, 0⟩] }

/-- Witness for C6 at a concrete input: a product with stock -3 is
persisted with stock 0 by one integrity-check run. -/
theorem c6_integrity_check_repair_witness :
    (BackgroundSync.checkDataIntegrity integrityWitnessState).2.products =
      integrityWitnessState.products.map (fun p =>
        if p.stock < 0 then { p with stock := 0 } else p) :=
  c6_integrity_check_repair.1 integrityWitnessState (by decide) (by decide)

namespace DBState

theorem sortByTs_of_sorted :
    ∀ (l : List Backup),
      List.Chain' (fun a b : Backup => a.timestamp < b.timestamp) l →
      sortByTs l = l := by
  intro l
  induction l with
  | nil => intro _; rfl
  | cons a l ih =>
    intro hchain
    have hstep : sortByTs (a :: l) = insertByTs a (sortByTs l) := rfl
    rw [hstep, ih hchain.tail]
    cases l with
    | nil => rfl
    | cons b l' =>
      unfold insertByTs
      rw [if_pos (List.chain'_cons.mp hchain).1]

theorem deleteBackupsLoop_backups :
    ∀ (del rest : List Backup) (st : DBState),
      st.dbInitialized = true →
      st.backups = del ++ rest →
      ((del ++ rest).map Backup.timestamp).Nodup →
      (deleteBackupsLoop st del).backups = rest := by
  intro del
  induction del with
  | nil =>
    intro rest st _ hb _
    simpa using hb
  | cons b del' ih =>
    intro rest st hinit hb hnodup
    unfold deleteBackupsLoop
    rcases hdel : st.deleteBackup b.timestamp with e | st'
    · unfold deleteBackup at hdel
      rw [hinit] at hdel
      cases hdel
    · rcases deleteBackup_ok_spec st b.timestamp st' hdel with
        ⟨hbks, -, -, -, hini', -, -, -⟩
    
      have hnotin : b.timestamp ∉ (del' ++ rest).map Backup.timestamp := by
        simp only [List.cons_append, List.map_cons, List.nodup_cons] at hnodup
        exact hnodup.1
      have hfilter : st'.backups = del' ++ rest := by
        rw [hbks, hb]
        rw [List.cons_append, List.filter_cons]
        rw [if_neg (by simp)]
        rw [List.filter_eq_self.mpr]
        intro x hx
        simp only [decide_eq_true_iff, ne_eq]
        intro h0
        exact hnotin (h0 ▸ List.mem_map.mpr ⟨x, hx, rfl⟩)
      apply ih rest st' (hini'.trans hinit) hfilter
      simp only [List.cons_append, List.map_cons, List.nodup_cons] at hnodup
      exact hnodup.2

theorem cleanupOldBackups_backups_sorted (st : DBState) (m : Nat)
    (hinit : st.dbInitialized = true)
    (hchain : List.Chain' (· < ·) (st.backups.map Backup.timestamp)) :
    (st.cleanupOldBackups m).backups =
      st.backups.drop (st.backups.length - m) := by
  unfold cleanupOldBackups
  by_cases hlen : m < st.backups.length
  · rw [if_pos hlen]
    have hsorted : sortByTs st.backups = st.backups :=
      sortByTs_of_sorted st.backups ((List.chain'_map Backup.timestamp).mp hchain)
    rw [hsorted]
    have hnodup : (st.backups.map Backup.timestamp).Nodup :=
      (List.chain'_iff_pairwise.mp hchain).nodup
    apply deleteBackupsLoop_backups _ _ st hinit
    · rw [List.take_append_drop]
    · rw [List.take_append_drop]
      exact hnodup
  · rw [if_neg hlen]
    have : st.backups.length - m = 0 := by omega
    rw [this, List.drop_zero]

theorem createBackup_spec (st : DBState) (btype : String)
    (dataArg : Option SysData)
    (hinit : st.dbInitialized = true)
    (hgt : ∀ t ∈ st.backups.map Backup.timestamp, t < st.now)
    (hchain : List.Chain' (· < ·) (st.backups.map Backup.timestamp)) :
    (st.createBackup btype dataArg).1 = some st.now ∧
    (st.createBackup btype dataArg).2.backups =
      (st.backups ++
        [({ timestamp := st.now, btype := btype,
            data := match dataArg with | some x => x | none => st.getSystemData,
            version := 3 } : Backup)]).drop
        (st.backups.length + 1 - 30) := by
  unfold createBackup
  simp only []
  set newB :=
    ({ timestamp := st.now, btype := btype,
       data := match dataArg with | some x => x | none => st.getSystemData,
       version := 3 } : Backup) with hB
  have hfresh : newB.timestamp ∉ st.backups.map Backup.timestamp := by
    intro hmem
    rw [hB] at hmem
    exact absurd (hgt _ hmem) (lt_irrefl st.now)
  have haddok : st.addBackup newB = Except.ok (newB.timestamp,
      DBState.afterWrite { st with backups := st.backups ++ [newB] }
        storeBackups "add") := by
    unfold addBackup
    rw [hinit]
    simp only [Bool.not_true, Bool.false_eq_true, if_false]
    rw [addRecord_fresh Backup.timestamp st.backups newB hfresh]
  rw [haddok]
  set AW := DBState.afterWrite { st with backups := st.backups ++ [newB] }
    storeBackups "add" with hAW
  have hbk1 : AW.backups = st.backups ++ [newB] := by
    rw [hAW]
    simp
  have hinitAW : AW.dbInitialized = true := by
    rw [hAW]
    simp [hinit]
  have hchainAW : List.Chain' (· < ·) (AW.backups.map Backup.timestamp) := by
    rw [hbk1, List.map_append, List.chain'_append]
    refine ⟨hchain, by simp, ?_⟩
    intro x hx y hy
    simp only [List.map_cons, List.map_nil, List.head?_cons,
      Option.mem_def, Option.some.injEq] at hy
    have hxmem : x ∈ st.backups.map Backup.timestamp :=
      List.mem_of_mem_getLast? hx
    rw [← hy]
    show x < newB.timestamp
    rw [hB]
    exact hgt x hxmem
  constructor
  · rfl
  · show (AW.cleanupOldBackups 30).backups = _
    rw [cleanupOldBackups_backups_sorted AW 30 hinitAW hchainAW, hbk1,
      List.length_append, List.length_singleton]

end DBState


/-- The repeated-creation fold of the retention scenario: one
`createBackup` per clock value. -/
def createMany (ts : List Nat) (st : DBState) : DBState :=
  ts.foldl (fun s t => (({ s with now := t }).createBackup "manual" none).2) st

theorem createMany_spec :
    ∀ (ts : List Nat) (st : DBState),
      st.dbInitialized = true → st.backups = [] →
      List.Chain' (· < ·) ts →
      (createMany ts st).dbInitialized = true ∧
      (createMany ts st).backups.map Backup.timestamp =
        ts.drop (ts.length - 30) := by
  intro ts
  induction ts using List.reverseRecOn with
  | nil =>
    intro st hinit hb _
    exact ⟨hinit, by simp [createMany, hb]⟩
  | append_singleton ts t ih =>
    intro st hinit hb hchain
    have hchain' : List.Chain' (· < ·) ts := (List.chain'_append.mp hchain).1
    have hlt : ∀ x ∈ ts, x < t := by
      have hpw := List.chain'_iff_pairwise.mp hchain
      rw [List.pairwise_append] at hpw
      intro x hx
      exact hpw.2.2 x hx t (by simp)
    rcases ih st hinit hb hchain' with ⟨hinit1, hmap1⟩
    have hstep : createMany (ts ++ [t]) st =
        (({ createMany ts st with now := t }).createBackup "manual" none).2 := by
      unfold createMany
      rw [List.foldl_append]
      rfl
    have hbkeq : ({ createMany ts st with now := t } : DBState).backups =
        (createMany ts st).backups := rfl
    have hinit_t : ({ createMany ts st with now := t } : DBState).dbInitialized
        = true := hinit1
    have hgt_t : ∀ u ∈ ({ createMany ts st with now := t } :
        DBState).backups.map Backup.timestamp,
        u < ({ createMany ts st with now := t } : DBState).now := by
      intro u hu
      rw [hbkeq, hmap1] at hu
      exact hlt u ((List.drop_sublist _ _).subset hu)
    have hchain_t : List.Chain' (· < ·)
        (({ createMany ts st with now := t } :
          DBState).backups.map Backup.timestamp) := by
      rw [hbkeq, hmap1]
      rw [List.chain'_iff_pairwise] at hchain' ⊢
      exact hchain'.sublist (List.drop_sublist _ _)
    obtain ⟨-, hbk⟩ := DBState.createBackup_spec _ "manual" none hinit_t
      hgt_t hchain_t
    constructor
    · rw [hstep]
      simp [hinit1]
    · rw [hstep, hbk]
      have hlen : ({ createMany ts st with now := t } :
          DBState).backups.length = ts.length - (ts.length - 30) := by
        have := congrArg List.length hmap1
        rw [List.length_map, List.length_drop] at this
        rw [hbkeq]
        exact this
      rw [List.map_drop, List.map_append, hbkeq, hmap1, hlen]
      rw [List.map_cons, List.map_nil]
      rw [List.drop_append_eq_append_drop, List.drop_append_eq_append_drop]
      rw [List.drop_drop, List.length_drop, List.length_append,
        List.length_singleton]
      have e1 : (ts.length - 30) + ((ts.length - (ts.length - 30)) + 1 - 30) =
          ts.length + 1 - 30 := by omega
      have e2 : ((ts.length - (ts.length - 30)) + 1 - 30) -
          (ts.length - (ts.length - 30)) = (ts.length + 1 - 30) - ts.length := by
        omega
      rw [e1, e2]

/-- Claim C4: every backup creation enforces the retention bound — when
the Backup collection exceeds `maxBackups`, its timestamp-ascending
prefix beyond the bound is deleted, keeping exactly the most recent
`maxBackups` — so creating any strictly-increasing sequence of backups
from an empty store leaves exactly the last 30 (the source's hardcoded
bound); in particular 35 creations leave the 30 most recent. -/
theorem c4_backup_retention :
    (∀ (st : DBState) (m : Nat), st.dbInitialized = true →
      List.Chain' (· < ·) (st.backups.map Backup.timestamp) →
      (st.cleanupOldBackups m).backups =
        st.backups.drop (st.backups.length - m)) ∧
    (∀ (ts : List Nat) (st : DBState),
      st.dbInitialized = true → st.backups = [] →
      List.Chain' (· < ·) ts →
      (createMany ts st).backups.map Backup.timestamp =
        ts.drop (ts.length - 30)) := by
  constructor
  · intro st m hinit hchain
    exact DBState.cleanupOldBackups_backups_sorted st m hinit hchain
  · intro ts st hinit hb hchain
    exact (createMany_spec ts st hinit hb hchain).2

/-- Witness for C4 at a concrete input: 35 backups with timestamps
0..34 created into an empty store leave exactly timestamps 5..34. -/
theorem c4_backup_retention_witness :
    (createMany (List.range 35) baseState).backups.map Backup.timestamp =
      (List.range 35).drop 5 :=
  c4_backup_retention.2 (List.range 35) baseState rfl rfl
    (List.chain'_iff_pairwise.mpr (List.pairwise_lt_range 35))

namespace DBState

theorem deleteSale_of_init (st : DBState) (k : Nat)
    (hinit : st.dbInitialized = true) :
    st.deleteSale k = Except.ok
      (DBState.afterWrite
        { st with sales := st.sales.filter (fun s => decide (s.id ≠ k)) }
        storeSales "delete") := by
  unfold deleteSale
  rw [hinit]
  rfl

end DBState

namespace BackgroundSync

theorem deleteSalesLoop_spec :
    ∀ (l : List Sale) (st : DBState), st.dbInitialized = true →
      (deleteSalesLoop st l).2 = l.map (fun s => SyncEvent.saleDeleted s.id) ∧
      (deleteSalesLoop st l).1.backups = st.backups ∧
      (deleteSalesLoop st l).1.dbInitialized = true := by
  intro l
  induction l with
  | nil => intro st hinit; exact ⟨rfl, rfl, hinit⟩
  | cons s rest ih =>
    intro st hinit
    unfold deleteSalesLoop
    rw [DBState.deleteSale_of_init st s.id hinit]
    have hinit' : (DBState.afterWrite
        { st with sales := st.sales.filter (fun x => decide (x.id ≠ s.id)) }
        storeSales "delete").dbInitialized = true := by
      simp [hinit]
    rcases ih _ hinit' with ⟨h1, h2, h3⟩
    refine ⟨?_, ?_, h3⟩
    · simp only [List.map_cons]
      rw [← h1]
    · rw [h2]
      simp

end BackgroundSync

/-- Claim C7 (amended): when the archive backup creation succeeds — in
particular whenever every existing backup timestamp is older than the
clock — every `saleDeleted` event of `cleanupOldData` is preceded in the
trace by the successful creation of the `archive` backup holding exactly
the old sales, and that backup is present in the final backup
collection.  (As stated, the claim fails when the backup insertion
fails: see the counterexample.) -/
theorem c7_archival_backup_then_delete (st : DBState)
    (hinit : st.dbInitialized = true)
    (hgt : ∀ u ∈ st.backups.map Backup.timestamp, u < st.now)
    (hchain : List.Chain' (· < ·) (st.backups.map Backup.timestamp)) :
    (∀ (i : Nat) (id : Nat),
      (BackgroundSync.cleanupOldData st).2.get? i =
        some (SyncEvent.saleDeleted id) →
      ∃ j, j < i ∧ (BackgroundSync.cleanupOldData st).2.get? j =
        some (SyncEvent.backupCreated "archive" st.now
          (BackgroundSync.archiveDataOf st))) ∧
    ((BackgroundSync.oldSalesOf st) ≠ [] →
      ({ timestamp := st.now, btype := "archive",
         data := BackgroundSync.archiveDataOf st, version := 3 } : Backup)
        ∈ (BackgroundSync.cleanupOldData st).1.backups) := by
  unfold BackgroundSync.cleanupOldData
  by_cases hempty : (BackgroundSync.oldSalesOf st).isEmpty
  · rw [if_pos hempty]
    constructor
    · intro i id hdel
      simp at hdel
    · intro hne
      rw [List.isEmpty_iff] at hempty
      exact absurd hempty hne
  · rw [if_neg hempty]
    obtain ⟨hres, hbk⟩ := DBState.createBackup_spec st "archive"
      (some (BackgroundSync.archiveDataOf st)) hinit hgt hchain
    have hinit1 : (st.createBackup "archive"
        (some (BackgroundSync.archiveDataOf st))).2.dbInitialized = true := by
      simp [hinit]
    obtain ⟨htr, hbks, -⟩ := BackgroundSync.deleteSalesLoop_spec
      (BackgroundSync.oldSalesOf st) _ hinit1
    rw [hres, htr]
    constructor
    · intro i id hdel
      cases i with
      | zero =>
        simp only [List.singleton_append, List.get?] at hdel
        cases hdel
      | succ n =>
        refine ⟨0, Nat.succ_pos n, ?_⟩
        simp
    · intro hne
      rw [hbks, hbk]
      have hk : st.backups.length + 1 - 30 ≤ st.backups.length := by omega
      rw [List.drop_append_eq_append_drop]
      rw [Nat.sub_eq_zero_of_le hk, List.drop_zero]
      exact List.mem_append.mpr (Or.inr (List.mem_singleton.mpr rfl))

/-- State where the archive backup insertion collides: an existing backup
already carries the current clock timestamp, and one sale is older than
two years. -/
def archiveFailState : DBState :=
  { baseState with
    sales := [⟨1, 0, "x", "cash", 10, some [⟨1, "item", 1, 10⟩]⟩],
    backups := [⟨twoYearsMs, "manual",
      ⟨some [], some [], some []⟩, 3⟩],
    now := twoYearsMs }

/-- Counterexample for C7 as stated: when the archive backup insertion
fails (timestamp key collision, swallowed by `createBackup`), the old
sale is deleted anyway — the trace shows the failed backup followed by
the deletion, and the final state holds no archive backup at all. -/
theorem c7_archival_backup_then_delete_counterexample :
    (BackgroundSync.cleanupOldData archiveFailState).2 =
      [SyncEvent.backupFailed "archive", SyncEvent.saleDeleted 1] ∧
    (BackgroundSync.cleanupOldData archiveFailState).1.sales = [] ∧
    ∀ b ∈ (BackgroundSync.cleanupOldData archiveFailState).1.backups,
      b.btype ≠ "archive" := by decide

/-- Witness for the amended C7 at a concrete input: with a fresh clock
the archive backup event precedes the deletion and the archive backup
is retained. -/
theorem c7_archival_backup_then_delete_witness :
    (∀ (i : Nat) (id : Nat),
      (BackgroundSync.cleanupOldData
        { archiveFailState with backups := [] }).2.get? i =
        some (SyncEvent.saleDeleted id) →
      ∃ j, j < i ∧ (BackgroundSync.cleanupOldData
        { archiveFailState with backups := [] }).2.get? j =
        some (SyncEvent.backupCreated "archive"
          ({ archiveFailState with backups := [] } : DBState).now
          (BackgroundSync.archiveDataOf
            { archiveFailState with backups := [] }))) ∧
    ((BackgroundSync.oldSalesOf { archiveFailState with backups := [] }) ≠ [] →
      ({ timestamp := ({ archiveFailState with backups := [] } : DBState).now,
         btype := "archive",
         data := BackgroundSync.archiveDataOf
           { archiveFailState with backups := [] },
         version := 3 } : Backup)
        ∈ (BackgroundSync.cleanupOldData
            { archiveFailState with backups := [] }).1.backups) :=
  c7_archival_backup_then_delete { archiveFailState with backups := [] }
    (by decide) (by decide) (by decide)

namespace DBState

theorem clearProducts_of_init (st : DBState) (hinit : st.dbInitialized = true) :
    st.clearProducts = Except.ok
      { st with
          products := [],
          cache := st.cache.invalidatePattern storeProducts } := by
  unfold clearProducts
  rw [hinit]
  rfl

theorem clearSales_of_init (st : DBState) (hinit : st.dbInitialized = true) :
    st.clearSales = Except.ok
      { st with
          sales := [],
          cache := st.cache.invalidatePattern storeSales } := by
  unfold clearSales
  rw [hinit]
  rfl

theorem clearSettings_of_init (st : DBState) (hinit : st.dbInitialized = true) :
    st.clearSettings = Except.ok
      { st with
          settings := [],
          cache := st.cache.invalidatePattern storeSettings } := by
  unfold clearSettings
  rw [hinit]
  rfl

theorem bulkAddProducts_ok (st : DBState) (l : List Product)
    (hinit : st.dbInitialized = true) (hne : l ≠ [])
    (hok : bulkAddOk Product.id st.products l) :
    st.bulkAddProducts (some l) = Except.ok (l.length,
      { st with
          products := st.products ++ l,
          cache := st.cache.invalidatePattern storeProducts }) := by
  unfold bulkAddProducts
  rw [if_neg (by simp [hinit, hne])]
  simp only [Option.getD_some]
  rw [if_pos hok]

theorem bulkAddSales_ok (st : DBState) (l : List Sale)
    (hinit : st.dbInitialized = true) (hne : l ≠ [])
    (hok : bulkAddOk Sale.id st.sales l) :
    st.bulkAddSales (some l) = Except.ok (l.length,
      { st with
          sales := st.sales ++ l,
          cache := st.cache.invalidatePattern storeSales }) := by
  unfold bulkAddSales
  rw [if_neg (by simp [hinit, hne])]
  simp only [Option.getD_some]
  rw [if_pos hok]

theorem bulkAddSettings_ok (st : DBState) (l : List Setting)
    (hinit : st.dbInitialized = true) (hne : l ≠ [])
    (hok : bulkAddOk Setting.key st.settings l) :
    st.bulkAddSettings (some l) = Except.ok (l.length,
      { st with
          settings := st.settings ++ l,
          cache := st.cache.invalidatePattern storeSettings }) := by
  unfold bulkAddSettings
  rw [if_neg (by simp [hinit, hne])]
  simp only [Option.getD_some]
  rw [if_pos hok]

theorem saveProductsPart_spec (st : DBState) (data : SysData)
    (ps : List Product) (hinit : st.dbInitialized = true)
    (hp : data.products = some ps) (hpne : ps ≠ [])
    (hpnd : (ps.map Product.id).Nodup) :
    ∃ st2, st.saveProductsPart data = Except.ok st2 ∧
      st2.products = ps ∧ st2.sales = st.sales ∧
      st2.settings = st.settings ∧ st2.backups = st.backups ∧
      st2.dbInitialized = true ∧ st2.now = st.now := by
  unfold saveProductsPart
  rw [hp]
  show ∃ st2, (if ps.isEmpty = true then Except.ok st
    else match st.clearProducts with
      | Except.error e => Except.error (e, st)
      | Except.ok st1 =>
        match st1.bulkAddProducts (some ps) with
        | Except.error e => Except.error (e, st1)
        | Except.ok (_, st2) => Except.ok st2) = Except.ok st2 ∧ _
  rw [if_neg (by simp [hpne])]
  rw [clearProducts_of_init st hinit]
  show ∃ st2, (match ({ st with
        products := [],
        cache := st.cache.invalidatePattern storeProducts } :
        DBState).bulkAddProducts (some ps) with
    | Except.error e => Except.error (e, { st with
          products := [],
          cache := st.cache.invalidatePattern storeProducts })
    | Except.ok (_, st2) => Except.ok st2) = Except.ok st2 ∧ _
  rw [bulkAddProducts_ok
    { st with products := [], cache := st.cache.invalidatePattern storeProducts }
    ps hinit hpne ⟨hpnd, by simp⟩]
  exact ⟨_, rfl, by simp, rfl, rfl, rfl, hinit, rfl⟩

theorem saveSalesPart_spec (st : DBState) (data : SysData)
    (ss : List Sale) (hinit : st.dbInitialized = true)
    (hs : data.sales = some ss) (hsne : ss ≠ [])
    (hsnd : (ss.map Sale.id).Nodup) :
    ∃ st2, st.saveSalesPart data = Except.ok st2 ∧
      st2.sales = ss ∧ st2.products = st.products ∧
      st2.settings = st.settings ∧ st2.backups = st.backups ∧
      st2.dbInitialized = true ∧ st2.now = st.now := by
  unfold saveSalesPart
  rw [hs]
  show ∃ st2, (if ss.isEmpty = true then Except.ok st
    else match st.clearSales with
      | Except.error e => Except.error (e, st)
      | Except.ok st1 =>
        match st1.bulkAddSales (some ss) with
        | Except.error e => Except.error (e, st1)
        | Except.ok (_, st2) => Except.ok st2) = Except.ok st2 ∧ _
  rw [if_neg (by simp [hsne])]
  rw [clearSales_of_init st hinit]
  show ∃ st2, (match ({ st with
        sales := [],
        cache := st.cache.invalidatePattern storeSales } :
        DBState).bulkAddSales (some ss) with
    | Except.error e => Except.error (e, { st with
          sales := [],
          cache := st.cache.invalidatePattern storeSales })
    | Except.ok (_, st2) => Except.ok st2) = Except.ok st2 ∧ _
  rw [bulkAddSales_ok
    { st with sales := [], cache := st.cache.invalidatePattern storeSales }
    ss hinit hsne ⟨hsnd, by simp⟩]
  exact ⟨_, rfl, by simp, rfl, rfl, rfl, hinit, rfl⟩

theorem saveSettingsPart_spec (st : DBState) (data : SysData)
    (os : List (String × String)) (hinit : st.dbInitialized = true)
    (ho : data.settings = some os) (hone : os ≠ [])
    (hond : (os.map Prod.fst).Nodup) :
    ∃ st2, st.saveSettingsPart data = Except.ok st2 ∧
      st2.settings = os.map (fun e => ({ key := e.1, value := e.2 } : Setting)) ∧
      st2.products = st.products ∧ st2.sales = st.sales ∧
      st2.backups = st.backups ∧
      st2.dbInitialized = true ∧ st2.now = st.now := by
  unfold saveSettingsPart
  rw [ho]
  show ∃ st2, (match st.clearSettings with
    | Except.error e => Except.error (e, st)
    | Except.ok st1 =>
      match st1.bulkAddSettings
        (some (os.map (fun e => ({ key := e.1, value := e.2 } : Setting)))) with
      | Except.error e => Except.error (e, st1)
      | Except.ok (_, st2) => Except.ok st2) = Except.ok st2 ∧ _
  rw [clearSettings_of_init st hinit]
  show ∃ st2, (match ({ st with
        settings := [],
        cache := st.cache.invalidatePattern storeSettings } :
        DBState).bulkAddSettings
        (some (os.map (fun e => ({ key := e.1, value := e.2 } : Setting)))) with
    | Except.error e => Except.error (e, { st with
          settings := [],
          cache := st.cache.invalidatePattern storeSettings })
    | Except.ok (_, st2) => Except.ok st2) = Except.ok st2 ∧ _
  rw [bulkAddSettings_ok
    { st with settings := [], cache := st.cache.invalidatePattern storeSettings }
    (os.map (fun e => ({ key := e.1, value := e.2 } : Setting)))
    hinit (by simpa using hone) ⟨?_, by simp⟩]
  · exact ⟨_, rfl, by simp, rfl, rfl, rfl, hinit, rfl⟩
  · rw [List.map_map]
    exact hond

end DBState

namespace DBState

theorem createBackup_collision (st : DBState) (btype : String)
    (dataArg : Option SysData)
    (hcol : st.now ∈ st.backups.map Backup.timestamp) :
    st.createBackup btype dataArg = (none, st) := by
  unfold createBackup
  simp only []
  rcases h : st.addBackup ⟨st.now, btype,
      (match dataArg with | some x => x | none => st.getSystemData), 3⟩
    with e | ⟨k, st1⟩
  · rfl
  · exfalso
    unfold addBackup at h
    split at h
    · cases h
    · rw [addRecord_dup Backup.timestamp st.backups _ hcol] at h
      cases h

theorem saveSystemData_eq (st st1 st2 st3 : DBState) (data : SysData)
    (h1 : st.saveProductsPart data = Except.ok st1)
    (h2 : st1.saveSalesPart data = Except.ok st2)
    (h3 : st2.saveSettingsPart data = Except.ok st3) :
    st.saveSystemData data = (true, (st3.createBackup "auto" (some data)).2) := by
  unfold saveSystemData
  rw [h1]
  show (match st1.saveSalesPart data with
    | Except.error (_, stp) => (true, stp)
    | Except.ok st2 =>
      match st2.saveSettingsPart data with
      | Except.error (_, stp) => (true, stp)
      | Except.ok st3 => (true, (st3.createBackup "auto" (some data)).2)) = _
  rw [h2]
  show (match st2.saveSettingsPart data with
    | Except.error (_, stp) => (true, stp)
    | Except.ok st3 => (true, (st3.createBackup "auto" (some data)).2)) = _
  rw [h3]

theorem saveSystemData_spec (st : DBState) (data : SysData)
    (ps : List Product) (ss : List Sale) (os : List (String × String))
    (hinit : st.dbInitialized = true)
    (hp : data.products = some ps) (hpne : ps ≠ [])
    (hpnd : (ps.map Product.id).Nodup)
    (hs : data.sales = some ss) (hsne : ss ≠ [])
    (hsnd : (ss.map Sale.id).Nodup)
    (ho : data.settings = some os) (hone : os ≠ [])
    (hond : (os.map Prod.fst).Nodup)
    (hcol : st.now ∈ st.backups.map Backup.timestamp) :
    ∃ st4, st.saveSystemData data = (true, st4) ∧
      st4.products = ps ∧ st4.sales = ss ∧
      st4.settings = os.map (fun e => ({ key := e.1, value := e.2 } : Setting)) ∧
      st4.backups = st.backups ∧
      st4.dbInitialized = true ∧ st4.now = st.now := by
  obtain ⟨st1, he1, hp1, hs1, hset1, hb1, hi1, hn1⟩ :=
    saveProductsPart_spec st data ps hinit hp hpne hpnd
  obtain ⟨st2, he2, hs2, hp2, hset2, hb2, hi2, hn2⟩ :=
    saveSalesPart_spec st1 data ss hi1 hs hsne hsnd
  obtain ⟨st3, he3, hset3, hp3, hs3, hb3, hi3, hn3⟩ :=
    saveSettingsPart_spec st2 data os hi2 ho hone hond
  have hcol3 : st3.now ∈ st3.backups.map Backup.timestamp := by
    rw [hn3, hn2, hn1, hb3, hb2, hb1]
    exact hcol
  have hcb : st3.createBackup "auto" (some data) = (none, st3) :=
    createBackup_collision st3 "auto" (some data) hcol3
  refine ⟨st3, ?_, ?_, ?_, hset3, ?_, hi3, ?_⟩
  · rw [saveSystemData_eq st st1 st2 st3 data he1 he2 he3, hcb]
  · rw [hp3, hp2, hp1]
  · rw [hs3, hs2]
  · rw [hb3, hb2, hb1]
  · rw [hn3, hn2, hn1]

end DBState

/-- Claim C5 (amended): for a backup present at timestamp T whose payload
has a non-empty products list, a non-empty sales list and a present
settings object (and a fresh, maximal clock timestamp), `restoreBackup`
succeeds, first creates a `pre_restore` backup capturing the pre-restore
system data, and afterwards the three collections equal exactly the
payload.  (As stated the claim fails: a payload collection the source's
truthiness guard skips — an empty products list — is left merged with the
pre-existing records; see the counterexample.) -/
theorem c5_restore_safety_full_replace (st : DBState) (T : Nat) (b : Backup)
    (ps : List Product) (ss : List Sale) (os : List (String × String))
    (hinit : st.dbInitialized = true)
    (hget : st.getBackup T = some b)
    (hgt : ∀ u ∈ st.backups.map Backup.timestamp, u < st.now)
    (hchain : List.Chain' (· < ·) (st.backups.map Backup.timestamp))
    (hp : b.data.products = some ps) (hpne : ps ≠ [])
    (hpnd : (ps.map Product.id).Nodup)
    (hs : b.data.sales = some ss) (hsne : ss ≠ [])
    (hsnd : (ss.map Sale.id).Nodup)
    (ho : b.data.settings = some os) (hone : os ≠ [])
    (hond : (os.map Prod.fst).Nodup) :
    (st.restoreBackup T).1 = true ∧
    (st.restoreBackup T).2.products = ps ∧
    (st.restoreBackup T).2.sales = ss ∧
    (st.restoreBackup T).2.settings =
      os.map (fun e => ({ key := e.1, value := e.2 } : Setting)) ∧
    ({ timestamp := st.now, btype := "pre_restore",
       data := st.getSystemData, version := 3 } : Backup)
      ∈ (st.restoreBackup T).2.backups := by
  have hre : st.restoreBackup T = (true,
      (((st.createBackup "pre_restore" none).2.saveSystemData b.data).2).logAudit
        "restore_backup" "timestamp") := by
    unfold DBState.restoreBackup
    rw [if_neg (by simp [hinit]), hget]
  obtain ⟨-, hbk1⟩ :=
    DBState.createBackup_spec st "pre_restore" none hinit hgt hchain
  set st1 := (st.createBackup "pre_restore" none).2 with hst1
  have hk : st.backups.length + 1 - 30 ≤ st.backups.length := by omega
  have hpreB : ({ timestamp := st.now, btype := "pre_restore",
                  data := st.getSystemData, version := 3 } : Backup)
      ∈ st1.backups := by
    rw [hbk1, List.drop_append_eq_append_drop, Nat.sub_eq_zero_of_le hk,
      List.drop_zero]
    exact List.mem_append.mpr (Or.inr (List.mem_singleton.mpr rfl))
  have hi1 : st1.dbInitialized = true := by
    rw [hst1]
    simp [hinit]
  have hn1 : st1.now = st.now := by
    rw [hst1]
    simp
  have hcol1 : st1.now ∈ st1.backups.map Backup.timestamp := by
    rw [hn1]
    exact List.mem_map.mpr ⟨_, hpreB, rfl⟩
  obtain ⟨st4, he4, hp4, hs4, hset4, hb4, hi4, hn4⟩ :=
    DBState.saveSystemData_spec st1 b.data ps ss os hi1 hp hpne hpnd
      hs hsne hsnd ho hone hond hcol1
  have hsnd4 : (st1.saveSystemData b.data).2 = st4 := by
    rw [he4]
  have hfin : (st.restoreBackup T).2 =
      st4.logAudit "restore_backup" "timestamp" := by
    rw [hre]
    show ((st1.saveSystemData b.data).2).logAudit
      "restore_backup" "timestamp" = _
    rw [hsnd4]
  refine ⟨by rw [hre], ?_, ?_, ?_, ?_⟩
  · rw [hfin]
    simp [hp4]
  · rw [hfin]
    simp [hs4]
  · rw [hfin]
    simp [hset4]
  · rw [hfin]
    simp only [DBState.logAudit_backups]
    rw [hb4]
    exact hpreB

/-- State holding one product and a backup whose payload has an empty
products list, for the C5 counterexample. -/
def restoreFailState : DBState :=
  { baseState with
    products := [⟨7, "keep", 5, 10, 0⟩],
    backups := [⟨100, "manual", ⟨some [], some [], some []⟩, 3⟩],
    now := 200 }

/-- Counterexample for C5 as stated: restoring the backup at timestamp
100 reports success, the backup's payload products list is empty, yet the
pre-existing product survives — the restore is not a full replace. -/
theorem c5_restore_safety_full_replace_counterexample :
    (restoreFailState.restoreBackup 100).1 = true ∧
    (restoreFailState.getBackup 100).map (fun b => b.data.products) =
      some (some []) ∧
    (restoreFailState.restoreBackup 100).2.products =
      [⟨7, "keep", 5, 10, 0⟩] ∧
    ¬ (restoreFailState.restoreBackup 100).2.products = [] := by decide

/-- State with a restorable backup carrying a non-empty payload, for the
C5 witness. -/
def restoreWitnessState : DBState :=
  { baseState with
    products := [⟨7, "old", 5, 10, 0⟩],
    backups := [⟨100, "manual",
      ⟨some [⟨1, "np", 2, 3, 0⟩],
       some [⟨4, 50, "a", "cash", 9, some [⟨1, "it", 1, 9⟩]⟩],
       some [("k", "v")]⟩, 3⟩],
    now := 200 }

/-- Witness for the amended C5 at a concrete input. -/
theorem c5_restore_safety_full_replace_witness :
    (restoreWitnessState.restoreBackup 100).1 = true ∧
    (restoreWitnessState.restoreBackup 100).2.products =
      [⟨1, "np", 2, 3, 0⟩] ∧
    (restoreWitnessState.restoreBackup 100).2.sales =
      [⟨4, 50, "a", "cash", 9, some [⟨1, "it", 1, 9⟩]⟩] ∧
    (restoreWitnessState.restoreBackup 100).2.settings =
      ([("k", "v")].map (fun e => ({ key := e.1, value := e.2 } : Setting))) ∧
    ({ timestamp := restoreWitnessState.now, btype := "pre_restore",
       data := restoreWitnessState.getSystemData, version := 3 } : Backup)
      ∈ (restoreWitnessState.restoreBackup 100).2.backups :=
  c5_restore_safety_full_replace restoreWitnessState 100
    ⟨100, "manual",
      ⟨some [⟨1, "np", 2, 3, 0⟩],
       some [⟨4, 50, "a", "cash", 9, some [⟨1, "it", 1, 9⟩]⟩],
       some [("k", "v")]⟩, 3⟩
    [⟨1, "np", 2, 3, 0⟩]
    [⟨4, 50, "a", "cash", 9, some [⟨1, "it", 1, 9⟩]⟩]
    [("k", "v")]
    (by decide) (by decide) (by decide) (by simp [restoreWitnessState]) rfl (by decide)
    (by decide) rfl (by decide) (by decide) rfl (by decide) (by decide)
